import Mathlib

/-!
Verification development for the Prover core of an anonymous-credential
(CL-signature) library.  The definitions below are a shallow embedding of
the functions in `src/libindy-crypto/src/cl/prover.rs`.

Modelling conventions:
* `BigNumber` is embedded as `Int`; modular arithmetic is explicit
  (`% n`, `powMod`, `modInv`).  The only fallible bignum operation on the
  paths modelled here is modular division (inverse of a non-invertible
  element), embedded as an `Except` value.
* `BTreeMap<String, _>` is embedded as an association list with
  overwrite-on-insert (`ains`) and first-match lookup (`alookup`); the
  source BTreeMap keeps keys sorted, which only affects hash-transcript
  iteration order, a property no theorem below depends on.
* Randomness (`bn_rand`, `GroupOrderElement::new`) is embedded by passing
  the sampled values as explicit arguments.
* The Fiat-Shamir hash `get_hash_as_int` (helpers, not part of the source
  file) is an uninterpreted parameter `H : List Bytes → Int`.
* Pairing and elliptic-group operations (the `pair` crate) are collected
  in a `PairingOps` record parameter; witnesses instantiate it with plain
  integer arithmetic.
* Rust `i32` arithmetic is embedded with explicit two's-complement
  wrapping (`wrap32`), matching release-profile semantics.
-/

/-- Byte strings are lists of byte values. -/
abbrev Bytes := List Nat

/-- The single error kind surfaced by the library. -/
inductive IndyCryptoError where
  | invalidStructure (msg : String)
deriving DecidableEq

/-- Results of fallible operations. -/
abbrev CResult (α : Type) := Except IndyCryptoError α

/-- Association lists keyed by strings, embedding `BTreeMap<String, α>`. -/
abbrev SMap (α : Type) := List (String × α)

/-- First-match lookup in an association list. -/
def alookup {α : Type} : SMap α → String → Option α
  | [], _ => none
  | (k, v) :: rest, key => if k = key then some v else alookup rest key

/-- Insert with overwrite, embedding `BTreeMap::insert`. -/
def ains {α : Type} : SMap α → String → α → SMap α
  | [], k, v => [(k, v)]
  | (k', v') :: rest, k, v =>
      if k' = k then (k, v) :: rest else (k', v') :: ains rest k v

/-- Minimal big-endian unsigned byte serialization of a natural number,
embedding `BN_bn2bin`. -/
def natBytes (n : Nat) : Bytes :=
  if n = 0 then [] else natBytes (n / 256) ++ [n % 256]
decreasing_by exact Nat.div_lt_self (Nat.pos_of_ne_zero (by assumption)) (by omega)

/-- Big-endian value of a byte string, embedding `BN_bin2bn`. -/
def bytesToNat (l : Bytes) : Nat :=
  l.foldl (fun acc b => acc * 256 + b) 0

/-- Byte serialization of a `BigNumber` (magnitude, big-endian, minimal). -/
def intBytes (i : Int) : Bytes := natBytes i.natAbs

/-- Modular exponentiation `a^e mod n`; exponents on all modelled paths are
non-negative, the clamp `toNat` mirrors that precondition. -/
def powMod (a e n : Int) : Int := (a ^ e.toNat) % n

/-- Executable modular inverse by exhaustive search (adequate for the
concrete witnesses; the theorems use it only through `bmodDiv`). -/
def modInv (a n : Int) : Int :=
  match (List.range n.toNat).find? (fun x => a * (x : Int) % n == 1) with
  | some x => (x : Int)
  | none => 0

/-- Modular division `a * b⁻¹ mod n`, embedding `BigNumber::mod_div`,
which fails when `b` is not invertible modulo `n`. -/
def bmodDiv (a b n : Int) : CResult Int :=
  if Int.gcd b n = 1 then .ok ((a * modInv b n) % n)
  else .error (.invalidStructure "BN mod inverse failed")

/-- Modelled from the spec: `get_pedersen_commitment(base1, exp1, base2,
exp2, modulus) = base1^exp1 * base2^exp2 mod modulus` (helper crate
`utils::commitment`, not part of the source file). -/
def get_pedersen_commitment (b1 e1 b2 e2 n : Int) : Int :=
  (powMod b1 e1 n * powMod b2 e2 n) % n

/-- Modelled from the spec: `get_exponentiated_generators(pairs, modulus) =
prod base_i^exp_i mod modulus` (helper crate, not part of the source file). -/
def get_exponentiated_generators (pairs : List (Int × Int)) (n : Int) : Int :=
  (pairs.map (fun p => powMod p.1 p.2 n)).prod % n

/-- Protocol constant `LARGE_E_START` (constants module, referenced by the
spec's constants table). -/
def LARGE_E_START : Nat := 596

/-- Protocol constant `ITERATION = 4` (four-square decomposition size). -/
def ITERATION : Nat := 4

/-- Two's-complement wrap to 32 bits, embedding release-profile Rust `i32`
arithmetic. -/
def wrap32 (x : Int) : Int := (x + 2 ^ 31) % 2 ^ 32 - 2 ^ 31

/-- Embeds `to_dec()?.parse::<i32>()`: succeeds exactly on values in the
`i32` range. -/
def parseI32 (v : Int) : Option Int :=
  if -(2 ^ 31) ≤ v ∧ v ≤ 2 ^ 31 - 1 then some v else none

/-- Modelled from the spec: `four_squares(n)` returns `(u0,u1,u2,u3)` with
`u0²+u1²+u2²+u3² = n` (helper crate, not part of the source file); found by
exhaustive search, keyed "0".."3" as the source consumes it. -/
def four_squares_nat (n : Nat) : Nat × Nat × Nat × Nat :=
  let search : Option (Nat × Nat × Nat × Nat) :=
    (List.range (n + 1)).findSome? fun a =>
      (List.range (n + 1)).findSome? fun b =>
        (List.range (n + 1)).findSome? fun c =>
          (List.range (n + 1)).findSome? fun d =>
            if a * a + b * b + c * c + d * d = n then some (a, b, c, d)
            else none
  search.getD (0, 0, 0, 0)

/-- The keyed form of the four-square decomposition used by the source. -/
def four_squares (d : Int) : SMap Int :=
  let q := four_squares_nat d.toNat
  [("0", (q.1 : Int)), ("1", (q.2.1 : Int)), ("2", (q.2.2.1 : Int)),
   ("3", (q.2.2.2 : Int))]

/-- Structural `mapM` for `CResult`, mirroring a Rust loop of fallible
steps with a trailing question mark. -/
def emapM {α β : Type} (f : α → CResult β) : List α → CResult (List β)
  | [] => .ok []
  | x :: xs =>
      match f x with
      | .error e => .error e
      | .ok y =>
          match emapM f xs with
          | .error e => .error e
          | .ok ys => .ok (y :: ys)

/-- Structural fallible left fold. -/
def efoldl {α β : Type} (f : β → α → CResult β) : β → List α → CResult β
  | acc, [] => .ok acc
  | acc, x :: xs =>
      match f acc x with
      | .error e => .error e
      | .ok acc' => efoldl f acc' xs

/-- Embeds `CredentialPrimaryPublicKey { n, s, z, rctxt, r }`. -/
structure CredentialPrimaryPublicKey where
  n : Int
  s : Int
  z : Int
  rctxt : Int
  r : SMap Int

/-- One credential attribute: encoded value and optional blinding factor. -/
structure AttributeValue where
  value : Int
  blinding_factor : Option Int

/-- Embeds `CredentialValues { attrs_values }`. -/
structure CredentialValues where
  attrs_values : SMap AttributeValue

/-- Embeds `CredentialSchema { attrs }` (a set of attribute names). -/
structure CredentialSchema where
  attrs : List String

/-- A GE predicate `{ attr_name, GE, value }`; `value` is an `i32` in the
source. -/
structure Predicate where
  attr_name : String
  value : Int

/-- Embeds `SubProofRequest { revealed_attrs, predicates }`. -/
structure SubProofRequest where
  revealed_attrs : List String
  predicates : List Predicate

/-- CL primary signature `{ m_2, a, e, v }`. -/
structure PrimaryCredentialSignature where
  m_2 : Int
  a : Int
  e : Int
  v : Int

/-- Embeds `SignatureCorrectnessProof { se, c }`. -/
structure SignatureCorrectnessProof where
  se : Int
  c : Int

/-- Embeds `CredentialKeyCorrectnessProof { c, xz_cap, xr_cap }`. -/
structure CredentialKeyCorrectnessProof where
  c : Int
  xz_cap : Int
  xr_cap : SMap Int

/-- Output of `_generate_primary_blinded_credential_secrets`. -/
structure PrimaryBlindedCredentialSecretsFactors where
  u : Int
  v_prime : Int
  committed_attributes : SMap Int

/-- Embeds `BlindedCredentialSecretsCorrectnessProof { c, v_dash_cap, m_caps, r_caps }`. -/
structure BlindedCredentialSecretsCorrectnessProof where
  c : Int
  v_dash_cap : Int
  m_caps : SMap Int
  r_caps : SMap Int

/-- Sampled randomness consumed by `blind_credential_secrets`
(`bn_rand` calls made explicit). -/
structure BlindRand where
  v_prime : Int
  v_dash_tilde : Int
  m_tilde : String → Int
  r_tilde : String → Int

/-- Embeds `Prover::_check_credential_key_correctness_proof`. -/
def check_credential_key_correctness_proof (H : List Bytes → Int)
    (pr_pub_key : CredentialPrimaryPublicKey)
    (key_correctness_proof : CredentialKeyCorrectnessProof) : CResult Unit :=
  match bmodDiv 1 pr_pub_key.z pr_pub_key.n with
  | .error e => .error e
  | .ok z_inverse =>
    let z_cap := get_pedersen_commitment z_inverse key_correctness_proof.c
        pr_pub_key.s key_correctness_proof.xz_cap pr_pub_key.n
    match efoldl (fun (r_cap : SMap Int) (kv : String × Int) =>
        match alookup key_correctness_proof.xr_cap kv.1 with
        | none => .error (.invalidStructure
            ("Value by key " ++ kv.1 ++ " not found in key_correctness_proof.xr_cap"))
        | some xr_cap_value =>
          match bmodDiv 1 kv.2 pr_pub_key.n with
          | .error e => .error e
          | .ok r_inverse =>
            .ok (ains r_cap kv.1 (get_pedersen_commitment r_inverse
                key_correctness_proof.c pr_pub_key.s xr_cap_value pr_pub_key.n)))
        [] pr_pub_key.r with
    | .error e => .error e
    | .ok r_cap =>
      let values : Bytes :=
        intBytes pr_pub_key.z
          ++ (pr_pub_key.r.map (fun kv => intBytes kv.2)).flatten
          ++ intBytes z_cap
          ++ (r_cap.map (fun kv => intBytes kv.2)).flatten
      let c := H [values]
      if key_correctness_proof.c = c then .ok ()
      else .error (.invalidStructure "Invalid Credential key correctness proof")

/-- Embeds the accumulation loop of
`Prover::_generate_primary_blinded_credential_secrets`: iterates the
attributes carrying a blinding factor, multiplying `R_i^{a_i}` into `u`
and committing each attribute. -/
def gen_blinded_aux (p_pub_key : CredentialPrimaryPublicKey) :
    List (String × AttributeValue) → Int → SMap Int →
    CResult (Int × SMap Int)
  | [], u, committed => .ok (u, committed)
  | (key, value) :: rest, u, committed =>
    if value.blinding_factor.isSome then
      match alookup p_pub_key.r key with
      | none => .error (.invalidStructure
          ("Value by key " ++ key ++ " not found in pk.r"))
      | some pk_r =>
        match value.blinding_factor with
        | none => .error (.invalidStructure
            ("Blinding Factor by key " ++ key ++
             " does not contain a value in credential_values.attrs_values"))
        | some bf =>
          gen_blinded_aux p_pub_key rest
            (u * powMod pk_r value.value p_pub_key.n % p_pub_key.n)
            (ains committed key (get_pedersen_commitment p_pub_key.s bf
              p_pub_key.z value.value p_pub_key.n))
    else gen_blinded_aux p_pub_key rest u committed

/-- Embeds `Prover::_generate_primary_blinded_credential_secrets`
(`v_prime` is the sampled random). -/
def generate_primary_blinded_credential_secrets
    (p_pub_key : CredentialPrimaryPublicKey)
    (credential_values : CredentialValues) (v_prime : Int) :
    CResult PrimaryBlindedCredentialSecretsFactors :=
  match gen_blinded_aux p_pub_key credential_values.attrs_values
      (powMod p_pub_key.s v_prime p_pub_key.n) [] with
  | .error e => .error e
  | .ok (u, committed_attributes) =>
      .ok { u, v_prime, committed_attributes }

/-- Embeds `Prover::_new_blinded_credential_secrets_correctness_proof`
(the sampled randoms come from `rand`). -/
def new_blinded_credential_secrets_correctness_proof (H : List Bytes → Int)
    (p_pub_key : CredentialPrimaryPublicKey)
    (primary_blinded_cred_secrets : PrimaryBlindedCredentialSecretsFactors)
    (nonce : Int) (cred_values : CredentialValues) (rand : BlindRand) :
    CResult BlindedCredentialSecretsCorrectnessProof :=
  let v_dash_tilde := rand.v_dash_tilde
  match efoldl (fun (st : Int × SMap Int × Bytes) (kv : String × Int) =>
      let m_tilde := rand.m_tilde kv.1
      let r_tilde := rand.r_tilde kv.1
      match alookup p_pub_key.r kv.1 with
      | none => .error (.invalidStructure
          ("Value by key " ++ kv.1 ++ " not found in pk.r"))
      | some pk_r =>
        let u_tilde := st.1 * powMod pk_r m_tilde p_pub_key.n % p_pub_key.n
        let commitment_tilde := get_pedersen_commitment p_pub_key.z m_tilde
            p_pub_key.s r_tilde p_pub_key.n
        .ok (u_tilde, ains st.2.1 kv.1 m_tilde,
             st.2.2 ++ intBytes commitment_tilde ++ intBytes kv.2))
      (powMod p_pub_key.s v_dash_tilde p_pub_key.n, ([] : SMap Int),
       ([] : Bytes))
      primary_blinded_cred_secrets.committed_attributes with
  | .error e => .error e
  | .ok (u_tilde, m_tildes, values0) =>
    let values := values0 ++ intBytes primary_blinded_cred_secrets.u
        ++ intBytes u_tilde ++ intBytes nonce
    let c := H [values]
    let v_dash_cap := c * primary_blinded_cred_secrets.v_prime + v_dash_tilde
    match efoldl (fun (st : SMap Int × SMap Int) (kv : String × Int) =>
        match alookup cred_values.attrs_values kv.1 with
        | none => .error (.invalidStructure
            ("Value by key " ++ kv.1 ++
             " not found in cred_values.committed_attributes"))
        | some ca =>
          match ca.blinding_factor with
          | none => .error (.invalidStructure
              ("Blinding Factor by key " ++ kv.1 ++
               " does not contain a value in cred_values.committed_attributes"))
          | some bf =>
            .ok (ains st.1 kv.1 (kv.2 + c * ca.value),
                 ains st.2 kv.1 (rand.r_tilde kv.1 + c * bf)))
        (([] : SMap Int), ([] : SMap Int)) m_tildes with
    | .error e => .error e
    | .ok (m_caps, r_caps) => .ok { c, v_dash_cap, m_caps, r_caps }

/-- Embeds `BlindedCredentialSecrets` (no revocation part; `ur` is `None` in the
primary-only setting modelled for the blinding claims). -/
structure BlindedCredentialSecrets where
  u : Int
  committed_attributes : SMap Int

/-- The primary part of `CredentialSecretsBlindingFactors`. -/
structure PrimaryBlindingFactors where
  v_prime : Int

/-- Embeds `Prover::blind_credential_secrets` for a key without a
revocation part: key-correctness check, primary blinding, then the
blinding correctness proof. -/
def blind_credential_secrets (H : List Bytes → Int)
    (p_pub_key : CredentialPrimaryPublicKey)
    (key_correctness_proof : CredentialKeyCorrectnessProof)
    (credential_values : CredentialValues) (credential_nonce : Int)
    (rand : BlindRand) :
    CResult (BlindedCredentialSecrets × PrimaryBlindingFactors ×
             BlindedCredentialSecretsCorrectnessProof) :=
  match check_credential_key_correctness_proof H p_pub_key
      key_correctness_proof with
  | .error e => .error e
  | .ok _ =>
    match generate_primary_blinded_credential_secrets p_pub_key
        credential_values rand.v_prime with
    | .error e => .error e
    | .ok factors =>
      match new_blinded_credential_secrets_correctness_proof H p_pub_key
          factors credential_nonce credential_values rand with
      | .error e => .error e
      | .ok proof =>
        .ok ({ u := factors.u,
               committed_attributes := factors.committed_attributes },
             { v_prime := factors.v_prime }, proof)

/-- Embeds `Prover::_process_primary_credential`: `v <- v_prime + v`. -/
def process_primary_credential (p_cred : PrimaryCredentialSignature)
    (v_prime : Int) : PrimaryCredentialSignature :=
  { p_cred with v := v_prime + p_cred.v }

/-- The per-attribute generator collection of
`_check_signature_correctness_proof`: look up `R_i` and pair it with the
attribute value. -/
def sig_check_gens (p_pub_key : CredentialPrimaryPublicKey)
    (kv : String × AttributeValue) : CResult (Int × Int) :=
  match alookup p_pub_key.r kv.1 with
  | none => .error (.invalidStructure
      ("Value by key " ++ kv.1 ++ " not found in pk.r"))
  | some pk_r => .ok (pk_r, kv.2.value)

/-- Embeds `Prover::_check_signature_correctness_proof`. -/
def check_signature_correctness_proof (H : List Bytes → Int)
    (p_cred_sig : PrimaryCredentialSignature)
    (cred_values : CredentialValues)
    (signature_correctness_proof : SignatureCorrectnessProof)
    (p_pub_key : CredentialPrimaryPublicKey) (nonce : Int) : CResult Unit :=
  if ¬ Nat.Prime p_cred_sig.e.toNat then
    .error (.invalidStructure "Invalid Signature correctness proof")
  else
    match emapM (sig_check_gens p_pub_key) cred_values.attrs_values with
    | .error e => .error e
    | .ok gens =>
      let rx := get_exponentiated_generators
          ((p_pub_key.s, p_cred_sig.v) ::
           (p_pub_key.rctxt, p_cred_sig.m_2) :: gens) p_pub_key.n
      match bmodDiv p_pub_key.z rx p_pub_key.n with
      | .error e => .error e
      | .ok q =>
        let expected_q := powMod p_cred_sig.a p_cred_sig.e p_pub_key.n
        if q ≠ expected_q then
          .error (.invalidStructure "Invalid Signature correctness proof")
        else
          let degree := signature_correctness_proof.c +
              signature_correctness_proof.se * p_cred_sig.e
          let a_cap := powMod p_cred_sig.a degree p_pub_key.n
          let c := H [intBytes q ++ intBytes p_cred_sig.a ++ intBytes a_cap
              ++ intBytes nonce]
          if signature_correctness_proof.c = c then .ok ()
          else .error (.invalidStructure "Invalid Signature correctness proof")

/-- Abstract interface of the `pair` crate: groups `G1`, `G2`, target
group `GT`, scalar field `Zq`, the bilinear pairing, serialization, and
the non-revocation tau-list constructor (`create_tau_list_values` lives in
the helpers crate, not in the source file; its byte output is what the
builder appends, so it is kept abstract here). -/
structure PairingOps (G1 G2 GT Zq : Type) where
  pair : G1 → G2 → GT
  gtMul : GT → GT → GT
  gtInv : GT → GT
  gtEq : GT → GT → Bool
  g1Add : G1 → G1 → G1
  g1Mul : G1 → Zq → G1
  g2Add : G2 → G2 → G2
  g2Mul : G2 → Zq → G2
  zqAdd : Zq → Zq → Zq
  zqMul : Zq → Zq → Zq
  zqNeg : Zq → Zq
  zqToBytes : Zq → Bytes
  bytesToZq : Bytes → Zq
  g1Bytes : G1 → Bytes
  g2Bytes : G2 → Bytes

/-- Embeds `CredentialRevocationPublicKey` (fields per the spec's data model). -/
structure CredentialRevocationPublicKey (G1 G2 : Type) where
  g : G1
  g_dash : G2
  h : G1
  h0 : G1
  h1 : G1
  h2 : G1
  htilde : G1
  h_cap : G2
  y : G2
  pk : G1

/-- Embeds `RevocationKeyPublic { z }`. -/
structure RevocationKeyPublic (GT : Type) where
  z : GT

/-- Embeds `RevocationRegistry { accum }`. -/
structure RevocationRegistry (G2 : Type) where
  accum : G2

/-- The non-revocation witness `{ omega }`. -/
structure Witness (G2 : Type) where
  omega : G2

/-- Embeds `WitnessSignature { sigma_i, u_i, g_i }`. -/
structure WitnessSignature (G1 G2 : Type) where
  sigma_i : G2
  u_i : G2
  g_i : G1

/-- Embeds `NonRevocationCredentialSignature`. -/
structure NonRevocationCredentialSignature (G1 G2 Zq : Type) where
  sigma : G1
  c : Zq
  vr_prime_prime : Zq
  witness_signature : WitnessSignature G1 G2
  g_i : G1
  i : Nat
  m2 : Zq

/-- Embeds `CredentialSignature { p_credential, r_credential }`. -/
structure CredentialSignature (G1 G2 Zq : Type) where
  p_credential : PrimaryCredentialSignature
  r_credential : Option (NonRevocationCredentialSignature G1 G2 Zq)

/-- Embeds `CredentialPublicKey { p_key, r_key }`. -/
structure CredentialPublicKey (G1 G2 : Type) where
  p_key : CredentialPrimaryPublicKey
  r_key : Option (CredentialRevocationPublicKey G1 G2)

/-- Embeds `CredentialSecretsBlindingFactors { v_prime, vr_prime }`. -/
structure CredentialSecretsBlindingFactors (Zq : Type) where
  v_prime : Int
  vr_prime : Option Zq

/-- Embeds `Prover::_test_witness_signature`: the three pairing-identity
checks, in source order, each failure reported as
`InvalidStructure("Issuer is sending incorrect data")`. -/
def test_witness_signature {G1 G2 GT Zq : Type}
    (ops : PairingOps G1 G2 GT Zq)
    (r_cred : NonRevocationCredentialSignature G1 G2 Zq)
    (cred_rev_pub_key : CredentialRevocationPublicKey G1 G2)
    (rev_key_pub : RevocationKeyPublic GT)
    (rev_reg : RevocationRegistry G2)
    (wit : Witness G2) (r_cnxt_m2 : Int) : CResult Unit :=
  let z_calc := ops.gtMul
      (ops.pair r_cred.witness_signature.g_i rev_reg.accum)
      (ops.gtInv (ops.pair cred_rev_pub_key.g wit.omega))
  if ¬ (ops.gtEq z_calc rev_key_pub.z = true) then
    .error (.invalidStructure "Issuer is sending incorrect data")
  else
    let pair_gg_calc := ops.pair
        (ops.g1Add cred_rev_pub_key.pk r_cred.g_i)
        r_cred.witness_signature.sigma_i
    let pair_gg := ops.pair cred_rev_pub_key.g cred_rev_pub_key.g_dash
    if ¬ (ops.gtEq pair_gg_calc pair_gg = true) then
      .error (.invalidStructure "Issuer is sending incorrect data")
    else
      let m2 := ops.bytesToZq (intBytes r_cnxt_m2)
      let pair_h1 := ops.pair r_cred.sigma
          (ops.g2Add cred_rev_pub_key.y
            (ops.g2Mul cred_rev_pub_key.h_cap r_cred.c))
      let pair_h2 := ops.pair
          (ops.g1Add
            (ops.g1Add
              (ops.g1Add cred_rev_pub_key.h0
                (ops.g1Mul cred_rev_pub_key.h1 m2))
              (ops.g1Mul cred_rev_pub_key.h2 r_cred.vr_prime_prime))
            r_cred.g_i)
          cred_rev_pub_key.h_cap
      if ¬ (ops.gtEq pair_h1 pair_h2 = true) then
        .error (.invalidStructure "Issuer is sending incorrect data")
      else .ok ()

/-- Embeds `Prover::_process_non_revocation_credential`: recompute `m2`
as a bignum, add `vr_prime` into `vr_prime_prime`, then test the witness
signature.  Returns the updated non-revocation credential. -/
def process_non_revocation_credential {G1 G2 GT Zq : Type}
    (ops : PairingOps G1 G2 GT Zq)
    (r_cred : NonRevocationCredentialSignature G1 G2 Zq)
    (vr_prime : Zq)
    (cred_rev_pub_key : CredentialRevocationPublicKey G1 G2)
    (rev_key_pub : RevocationKeyPublic GT)
    (rev_reg : RevocationRegistry G2)
    (wit : Witness G2) :
    CResult (NonRevocationCredentialSignature G1 G2 Zq) :=
  let r_cnxt_m2 : Int := Int.ofNat (bytesToNat (ops.zqToBytes r_cred.m2))
  let r_cred' := { r_cred with
      vr_prime_prime := ops.zqAdd vr_prime r_cred.vr_prime_prime }
  match test_witness_signature ops r_cred' cred_rev_pub_key rev_key_pub
      rev_reg wit r_cnxt_m2 with
  | .error e => .error e
  | .ok _ => .ok r_cred'

/-- Embeds `Prover::process_credential_signature`: unblind the primary
signature, verify the signature correctness proof, and, when all six
revocation inputs are present, process the non-revocation credential.
The (possibly) updated signature is returned. -/
def process_credential_signature {G1 G2 GT Zq : Type}
    (H : List Bytes → Int) (ops : PairingOps G1 G2 GT Zq)
    (credential_signature : CredentialSignature G1 G2 Zq)
    (credential_values : CredentialValues)
    (signature_correctness_proof : SignatureCorrectnessProof)
    (blinding_factors : CredentialSecretsBlindingFactors Zq)
    (credential_pub_key : CredentialPublicKey G1 G2)
    (nonce : Int)
    (rev_key_pub : Option (RevocationKeyPublic GT))
    (rev_reg : Option (RevocationRegistry G2))
    (wit : Option (Witness G2)) :
    CResult (CredentialSignature G1 G2 Zq) :=
  let p_cred := process_primary_credential
      credential_signature.p_credential blinding_factors.v_prime
  match check_signature_correctness_proof H p_cred credential_values
      signature_correctness_proof credential_pub_key.p_key nonce with
  | .error e => .error e
  | .ok _ =>
    match credential_signature.r_credential, blinding_factors.vr_prime,
        credential_pub_key.r_key, rev_key_pub, rev_reg, wit with
    | some r_cred, some vr_prime, some r_key, some r_key_pub, some r_reg,
      some w =>
        match process_non_revocation_credential ops r_cred vr_prime r_key
            r_key_pub r_reg w with
        | .error e => .error e
        | .ok r_cred' =>
            .ok { p_credential := p_cred, r_credential := some r_cred' }
    | _, _, _, _, _, _ =>
        .ok { p_credential := p_cred,
              r_credential := credential_signature.r_credential }

/-- Sampled randomness consumed by `_init_eq_proof`. -/
structure EqRand where
  m2_tilde : Int
  r : Int
  e_tilde : Int
  v_tilde : Int
  m_tilde : String → Int

/-- Sampled randomness consumed by `_init_ge_proof`. -/
structure GeRand where
  r : Nat → Int
  r_delta : Int
  u_tilde : Nat → Int
  r_tilde : Nat → Int
  r_tilde_delta : Int
  alpha_tilde : Int

/-- Embeds `NonRevocProofXList` (14 group-order elements). -/
structure NonRevocProofXList (Zq : Type) where
  rho : Zq
  r : Zq
  r_prime : Zq
  r_prime_prime : Zq
  r_prime_prime_prime : Zq
  o : Zq
  o_prime : Zq
  m : Zq
  m_prime : Zq
  t : Zq
  t_prime : Zq
  m2 : Zq
  s : Zq
  c : Zq

/-- Embeds `NonRevocProofCList` (7 randomized commitments `E D A G W S U`). -/
structure NonRevocProofCList (G1 G2 : Type) where
  e : G1
  d : G1
  a : G1
  g : G1
  w : G2
  s : G2
  u : G2

/-- Embeds `NonRevocInitProof`.  The tau-list values are produced by the helper
`create_tau_list_values` (not part of the source file); only their byte
serialization reaches the builder, so they are kept as bytes, supplied by
an abstract constructor argument. -/
structure NonRevocInitProof (G1 G2 Zq : Type) where
  c_list_params : NonRevocProofXList Zq
  tau_list_params : NonRevocProofXList Zq
  c_list : NonRevocProofCList G1 G2
  tau_list_bytes : List Bytes

/-- Sampled randomness consumed by `_init_non_revocation_proof`
(`_gen_c_list_params` blinders plus the independent
`_gen_tau_list_params` tuple). -/
structure NonRevRand (Zq : Type) where
  rho : Zq
  r : Zq
  r_prime : Zq
  r_prime_prime : Zq
  r_prime_prime_prime : Zq
  o : Zq
  o_prime : Zq
  tau : NonRevocProofXList Zq

/-- All randomness consumed by one `add_sub_proof_request` call. -/
structure SubProofRand (Zq : Type) where
  eq : EqRand
  ge : Nat → GeRand
  non_rev : NonRevRand Zq

/-- Embeds `PrimaryEqualInitProof`. -/
structure PrimaryEqualInitProof where
  a_prime : Int
  t : Int
  e_tilde : Int
  e_prime : Int
  v_tilde : Int
  v_prime : Int
  m_tilde : SMap Int
  m2_tilde : Int
  m2 : Int

/-- Embeds `PrimaryPredicateGEInitProof`. -/
structure PrimaryPredicateGEInitProof where
  c_list : List Int
  tau_list : List Int
  u : SMap Int
  u_tilde : SMap Int
  r : SMap Int
  r_tilde : SMap Int
  alpha_tilde : Int
  predicate : Predicate
  t : SMap Int

/-- Embeds `PrimaryInitProof { eq_proof, ge_proofs }`. -/
structure PrimaryInitProof where
  eq_proof : PrimaryEqualInitProof
  ge_proofs : List PrimaryPredicateGEInitProof

/-- Embeds `InitProof`: one credential's initialization material, with cloned
values/schema/request. -/
structure InitProof (G1 G2 Zq : Type) where
  primary_init_proof : PrimaryInitProof
  non_revoc_init_proof : Option (NonRevocInitProof G1 G2 Zq)
  credential_values : CredentialValues
  sub_proof_request : SubProofRequest
  credential_schema : CredentialSchema

/-- Embeds `ProofBuilder { init_proofs, c_list, tau_list }`. -/
structure ProofBuilder (G1 G2 Zq : Type) where
  init_proofs : SMap (InitProof G1 G2 Zq)
  c_list : List Bytes
  tau_list : List Bytes

/-- Embeds `Prover::new_proof_builder`. -/
def new_proof_builder (G1 G2 Zq : Type) : ProofBuilder G1 G2 Zq :=
  { init_proofs := [], c_list := [], tau_list := [] }

/-- Embeds `PrimaryEqualProof` (finalized). -/
structure PrimaryEqualProof where
  revealed_attrs : SMap Int
  a_prime : Int
  e : Int
  v : Int
  m : SMap Int
  m2 : Int

/-- Embeds `PrimaryPredicateGEProof` (finalized). -/
structure PrimaryPredicateGEProof where
  u : SMap Int
  r : SMap Int
  mj : Int
  alpha : Int
  t : SMap Int
  predicate : Predicate

/-- Embeds `PrimaryProof` (finalized). -/
structure PrimaryProof where
  eq_proof : PrimaryEqualProof
  ge_proofs : List PrimaryPredicateGEProof

/-- Embeds `NonRevocProof` (finalized). -/
structure NonRevocProof (G1 G2 Zq : Type) where
  x_list : NonRevocProofXList Zq
  c_list : NonRevocProofCList G1 G2

/-- Embeds `SubProof`. -/
structure SubProof (G1 G2 Zq : Type) where
  primary_proof : PrimaryProof
  non_revoc_proof : Option (NonRevocProof G1 G2 Zq)

/-- Embeds `AggregatedProof { c_hash, c_list }`. -/
structure AggregatedProof where
  c_hash : Int
  c_list : List Bytes

/-- Embeds `Proof { proofs, aggregated_proof }`. -/
structure Proof (G1 G2 Zq : Type) where
  proofs : SMap (SubProof G1 G2 Zq)
  aggregated_proof : AggregatedProof

/-- Boolean set equality of attribute-name lists (the source compares
`HashSet`s). -/
def sameSet (a b : List String) : Bool :=
  a.all b.contains && b.all a.contains

/-- Boolean set inclusion (the source tests `difference(..).count() != 0`). -/
def subsetOf (a b : List String) : Bool :=
  a.all b.contains

/-- Embeds `ProofBuilder::_check_add_sub_proof_request_params_consistency`. -/
def check_add_sub_proof_request_params_consistency
    (cred_values : CredentialValues) (sub_proof_request : SubProofRequest)
    (cred_schema : CredentialSchema) : CResult Unit :=
  let cred_attrs := cred_values.attrs_values.map Prod.fst
  if ¬ (sameSet cred_schema.attrs cred_attrs = true) then
    .error (.invalidStructure "Credential does not correspond to credential schema")
  else if ¬ (subsetOf sub_proof_request.revealed_attrs cred_attrs = true) then
    .error (.invalidStructure "Credential does not contain requested attribute")
  else if ¬ (subsetOf (sub_proof_request.predicates.map Predicate.attr_name)
      cred_attrs = true) then
    .error (.invalidStructure
      "Credential does not contain attribute requested in predicate")
  else .ok ()

/-- The unrevealed attributes: `schema.attrs \ revealed_attrs`. -/
def unrevealed_attrs (cred_schema : CredentialSchema)
    (sub_proof_request : SubProofRequest) : List String :=
  cred_schema.attrs.filter
    (fun a => ! sub_proof_request.revealed_attrs.contains a)

/-- Modelled from the spec: `get_mtilde` samples one `m_tilde` per
unrevealed attribute (helper crate, not part of the source file); the
samples come from `randM`. -/
def get_mtilde (randM : String → Int) (unrevealed : List String) :
    SMap Int :=
  unrevealed.foldl (fun acc a => ains acc a (randM a)) []

/-- The per-attribute factor `R_attr^{m_tilde_attr} mod n` of `calc_teq`
(helper crate, modelled from the spec). -/
def teq_factor (p_pub_key : CredentialPrimaryPublicKey)
    (m_tilde : SMap Int) (attr : String) : CResult Int :=
  match alookup p_pub_key.r attr with
  | none => .error (.invalidStructure
      ("Value by key " ++ attr ++ " not found in pk.r"))
  | some rv =>
    match alookup m_tilde attr with
    | none => .error (.invalidStructure
        ("Value by key " ++ attr ++ " not found in mtilde"))
    | some mv => .ok (powMod rv mv p_pub_key.n)

/-- Modelled from the spec:
`calc_teq = A'^{e_tilde} * S^{v_tilde} * Rctxt^{m2_tilde} *
prod R_attr^{m_tilde_attr} mod n` over the unrevealed attributes
(helper crate, not part of the source file). -/
def calc_teq (p_pub_key : CredentialPrimaryPublicKey)
    (a_prime e_tilde v_tilde : Int) (m_tilde : SMap Int) (m2_tilde : Int)
    (unrevealed : List String) : CResult Int :=
  match emapM (teq_factor p_pub_key m_tilde) unrevealed with
  | .error e => .error e
  | .ok factors =>
      .ok ((powMod a_prime e_tilde p_pub_key.n
          * powMod p_pub_key.s v_tilde p_pub_key.n
          * powMod p_pub_key.rctxt m2_tilde p_pub_key.n
          * factors.prod) % p_pub_key.n)

/-- Modelled from the spec: `calc_tge` computes the range sub-proof
tau-list: `Z^{u_tilde_i} * S^{r_tilde_i} mod n` for i = 0..3, then
`Z^{m_j} * S^{r_tilde_DELTA} mod n`, then an entry encoding the
four-square relation from `alpha_tilde` and the `T_i` (helper crate, not
part of the source file; no theorem depends on the exact last entry). -/
def calc_tge (p_pub_key : CredentialPrimaryPublicKey)
    (u_tilde r_tilde : SMap Int) (mj alpha_tilde : Int) (t : SMap Int) :
    List Int :=
  let part := (List.range ITERATION).map (fun i =>
      get_pedersen_commitment p_pub_key.z
        ((alookup u_tilde (toString i)).getD 0) p_pub_key.s
        ((alookup r_tilde (toString i)).getD 0) p_pub_key.n)
  let tau4 := get_pedersen_commitment p_pub_key.z mj p_pub_key.s
      ((alookup r_tilde "DELTA").getD 0) p_pub_key.n
  let tau5 := (powMod p_pub_key.s alpha_tilde p_pub_key.n *
      ((List.range ITERATION).map (fun i =>
        powMod ((alookup t (toString i)).getD 0)
          ((alookup u_tilde (toString i)).getD 0) p_pub_key.n)).prod)
      % p_pub_key.n
  part ++ [tau4, tau5]

/-- Embeds `ProofBuilder::_init_eq_proof`. -/
def init_eq_proof (rand : EqRand)
    (credr_pub_key : CredentialPrimaryPublicKey)
    (c1 : PrimaryCredentialSignature) (cred_schema : CredentialSchema)
    (sub_proof_request : SubProofRequest) (m2_t : Option Int) :
    CResult PrimaryEqualInitProof :=
  let m2_tilde := m2_t.getD rand.m2_tilde
  let r := rand.r
  let e_tilde := rand.e_tilde
  let v_tilde := rand.v_tilde
  let unrevealed := unrevealed_attrs cred_schema sub_proof_request
  let m_tilde := get_mtilde rand.m_tilde unrevealed
  let a_prime := powMod credr_pub_key.s r credr_pub_key.n * c1.a
      % credr_pub_key.n
  let v_prime := c1.v - c1.e * r
  let e_prime := c1.e - 2 ^ LARGE_E_START
  match calc_teq credr_pub_key a_prime e_tilde v_tilde m_tilde m2_tilde
      unrevealed with
  | .error e => .error e
  | .ok t =>
      .ok { a_prime, t, e_tilde, e_prime, v_tilde, v_prime, m_tilde,
            m2_tilde, m2 := c1.m_2 }

/-- The commitment loop body of `_init_ge_proof`: look up `u_i`, sample
`r_i`, commit `T_i = Z^{u_i} * S^{r_i} mod n`, extending the `r`/`t`
maps and the local commitment list. -/
def ge_fold_step (p_pub_key : CredentialPrimaryPublicKey) (rand : GeRand)
    (u : SMap Int) (st : SMap Int × SMap Int × List Int) (i : Nat) :
    CResult (SMap Int × SMap Int × List Int) :=
  match alookup u (toString i) with
  | none => .error (.invalidStructure
      ("Value by key " ++ toString i ++ " not found in u1"))
  | some cur_u =>
    let cur_r := rand.r i
    let cut_t := get_pedersen_commitment p_pub_key.z cur_u p_pub_key.s
        cur_r p_pub_key.n
    .ok (ains st.1 (toString i) cur_r, ains st.2.1 (toString i) cut_t,
         st.2.2 ++ [cut_t])

/-- Embeds `ProofBuilder::_init_ge_proof` (including the `i32` parse of
the attribute value and the wrapping `i32` subtraction producing `delta`). -/
def init_ge_proof (rand : GeRand)
    (p_pub_key : CredentialPrimaryPublicKey) (m_tilde : SMap Int)
    (cred_values : CredentialValues) (predicate : Predicate) :
    CResult PrimaryPredicateGEInitProof :=
  match alookup cred_values.attrs_values predicate.attr_name with
  | none => .error (.invalidStructure
      ("Value by key " ++ predicate.attr_name ++ " not found in cred_values"))
  | some av =>
    match parseI32 av.value with
    | none => .error (.invalidStructure
        ("Value by key " ++ predicate.attr_name ++ " has invalid format"))
    | some attr_value =>
      let delta := wrap32 (attr_value - predicate.value)
      if delta < 0 then
        .error (.invalidStructure "Predicate is not satisfied")
      else
        let u := four_squares delta
        match efoldl (ge_fold_step p_pub_key rand u)
            (([], [], []) : SMap Int × SMap Int × List Int)
            (List.range ITERATION) with
        | .error e => .error e
        | .ok (r0, t0, c_list0) =>
          let r_delta := rand.r_delta
          let t_delta := get_pedersen_commitment p_pub_key.z delta
              p_pub_key.s r_delta p_pub_key.n
          let r := ains r0 "DELTA" r_delta
          let t := ains t0 "DELTA" t_delta
          let c_list := c_list0 ++ [t_delta]
          let u_tilde := (List.range ITERATION).foldl
              (fun acc i => ains acc (toString i) (rand.u_tilde i)) []
          let r_tilde0 := (List.range ITERATION).foldl
              (fun acc i => ains acc (toString i) (rand.r_tilde i)) []
          let r_tilde := ains r_tilde0 "DELTA" rand.r_tilde_delta
          let alpha_tilde := rand.alpha_tilde
          match alookup m_tilde predicate.attr_name with
          | none => .error (.invalidStructure
              ("Value by key " ++ predicate.attr_name ++
               " not found in eq_proof.mtilde"))
          | some mj =>
            let tau_list := calc_tge p_pub_key u_tilde r_tilde mj
                alpha_tilde t
            .ok { c_list, tau_list, u, u_tilde, r, r_tilde, alpha_tilde,
                  predicate, t }

/-- Embeds `ProofBuilder::_init_primary_proof`: the equality proof's
`m_tilde` mapping is passed into every range-proof initialization. -/
def init_primary_proof (eqRand : EqRand) (geRand : Nat → GeRand)
    (issuer_pub_key : CredentialPrimaryPublicKey)
    (c1 : PrimaryCredentialSignature) (cred_values : CredentialValues)
    (cred_schema : CredentialSchema)
    (sub_proof_request : SubProofRequest) (m2_t : Option Int) :
    CResult PrimaryInitProof :=
  match init_eq_proof eqRand issuer_pub_key c1 cred_schema
      sub_proof_request m2_t with
  | .error e => .error e
  | .ok eq_proof =>
    match emapM (fun (ip : Nat × Predicate) =>
        init_ge_proof (geRand ip.1) issuer_pub_key eq_proof.m_tilde
          cred_values ip.2)
        ((List.range sub_proof_request.predicates.length).zip
          sub_proof_request.predicates) with
    | .error e => .error e
    | .ok ge_proofs => .ok { eq_proof, ge_proofs }

/-- Embeds `PrimaryInitProof::as_c_list`: the randomized `A'` followed by each
range proof's commitment list (serialization glue from the `cl` module,
byte layout modelled from the spec's transcript description). -/
def primary_init_as_c_list (p : PrimaryInitProof) : List Bytes :=
  intBytes p.eq_proof.a_prime ::
    (p.ge_proofs.map (fun g => g.c_list.map intBytes)).flatten

/-- Embeds `PrimaryInitProof::as_tau_list`: the blinded commitment `T` followed
by each range proof's tau list (modelled as for `as_c_list`). -/
def primary_init_as_tau_list (p : PrimaryInitProof) : List Bytes :=
  intBytes p.eq_proof.t ::
    (p.ge_proofs.map (fun g => g.tau_list.map intBytes)).flatten

/-- Embeds `ProofBuilder::_gen_c_list_params`. -/
def gen_c_list_params {G1 G2 GT Zq : Type} (ops : PairingOps G1 G2 GT Zq)
    (rand : NonRevRand Zq)
    (r_cred : NonRevocationCredentialSignature G1 G2 Zq) :
    NonRevocProofXList Zq :=
  { rho := rand.rho, r := rand.r, r_prime := rand.r_prime,
    r_prime_prime := rand.r_prime_prime,
    r_prime_prime_prime := rand.r_prime_prime_prime,
    o := rand.o, o_prime := rand.o_prime,
    m := ops.zqMul rand.rho r_cred.c,
    m_prime := ops.zqMul rand.r rand.r_prime_prime,
    t := ops.zqMul rand.o r_cred.c,
    t_prime := ops.zqMul rand.o_prime rand.r_prime_prime,
    m2 := ops.bytesToZq (ops.zqToBytes r_cred.m2),
    s := r_cred.vr_prime_prime, c := r_cred.c }

/-- Embeds `ProofBuilder::_create_c_list_values`. -/
def create_c_list_values {G1 G2 GT Zq : Type}
    (ops : PairingOps G1 G2 GT Zq)
    (r_cred : NonRevocationCredentialSignature G1 G2 Zq)
    (params : NonRevocProofXList Zq)
    (r_pub_key : CredentialRevocationPublicKey G1 G2)
    (wit : Witness G2) : NonRevocProofCList G1 G2 :=
  { e := ops.g1Add (ops.g1Mul r_pub_key.h params.rho)
        (ops.g1Mul r_pub_key.htilde params.o),
    d := ops.g1Add (ops.g1Mul r_pub_key.g params.r)
        (ops.g1Mul r_pub_key.htilde params.o_prime),
    a := ops.g1Add r_cred.sigma (ops.g1Mul r_pub_key.htilde params.rho),
    g := ops.g1Add r_cred.g_i (ops.g1Mul r_pub_key.htilde params.r),
    w := ops.g2Add wit.omega (ops.g2Mul r_pub_key.h_cap params.r_prime),
    s := ops.g2Add r_cred.witness_signature.sigma_i
        (ops.g2Mul r_pub_key.h_cap params.r_prime_prime),
    u := ops.g2Add r_cred.witness_signature.u_i
        (ops.g2Mul r_pub_key.h_cap params.r_prime_prime_prime) }

/-- Embeds `NonRevocProofCList::as_c_list`: the seven commitments serialized in
struct order. -/
def non_revoc_as_c_list {G1 G2 GT Zq : Type}
    (ops : PairingOps G1 G2 GT Zq) (cl : NonRevocProofCList G1 G2) :
    List Bytes :=
  [ops.g1Bytes cl.e, ops.g1Bytes cl.d, ops.g1Bytes cl.a, ops.g1Bytes cl.g,
   ops.g2Bytes cl.w, ops.g2Bytes cl.s, ops.g2Bytes cl.u]

/-- Embeds `ProofBuilder::_init_non_revocation_proof`; `tauBytes` is the
byte serialization of `create_tau_list_values` (helpers crate, abstract). -/
def init_non_revocation_proof {G1 G2 GT Zq : Type}
    (ops : PairingOps G1 G2 GT Zq)
    (tauBytes : CredentialRevocationPublicKey G1 G2 →
      RevocationRegistry G2 → NonRevocProofXList Zq →
      NonRevocProofCList G1 G2 → List Bytes)
    (rand : NonRevRand Zq)
    (r_cred : NonRevocationCredentialSignature G1 G2 Zq)
    (rev_reg : RevocationRegistry G2)
    (cred_rev_pub_key : CredentialRevocationPublicKey G1 G2)
    (wit : Witness G2) : NonRevocInitProof G1 G2 Zq :=
  let c_list_params := gen_c_list_params ops rand r_cred
  let c_list := create_c_list_values ops r_cred c_list_params
      cred_rev_pub_key wit
  let tau_list_params := rand.tau
  { c_list_params, tau_list_params, c_list,
    tau_list_bytes := tauBytes cred_rev_pub_key rev_reg tau_list_params
      c_list }

/-- Embeds `group_element_to_bignum` (helpers): serialize and reparse. -/
def group_element_to_bignum {G1 G2 GT Zq : Type}
    (ops : PairingOps G1 G2 GT Zq) (z : Zq) : Int :=
  Int.ofNat (bytesToNat (ops.zqToBytes z))

/-- Embeds `bignum_to_group_element` (helpers): serialize and reparse. -/
def bignum_to_group_element {G1 G2 GT Zq : Type}
    (ops : PairingOps G1 G2 GT Zq) (i : Int) : Zq :=
  ops.bytesToZq (intBytes i)

/-- Embeds `ProofBuilder::add_sub_proof_request`.  The Rust method
mutates `self`; the embedding threads the builder state explicitly and
returns it alongside the result, so that the state left behind by a
failing call is observable. -/
def add_sub_proof_request {G1 G2 GT Zq : Type}
    (ops : PairingOps G1 G2 GT Zq)
    (tauBytes : CredentialRevocationPublicKey G1 G2 →
      RevocationRegistry G2 → NonRevocProofXList Zq →
      NonRevocProofCList G1 G2 → List Bytes)
    (rand : SubProofRand Zq) (b : ProofBuilder G1 G2 Zq)
    (key_id : String) (sub_proof_request : SubProofRequest)
    (credential_schema : CredentialSchema)
    (credential_signature : CredentialSignature G1 G2 Zq)
    (credential_values : CredentialValues)
    (credential_pub_key : CredentialPublicKey G1 G2)
    (rev_reg : Option (RevocationRegistry G2))
    (wit : Option (Witness G2)) :
    CResult Unit × ProofBuilder G1 G2 Zq :=
  match check_add_sub_proof_request_params_consistency credential_values
      sub_proof_request credential_schema with
  | .error e => (.error e, b)
  | .ok _ =>
    let step : ProofBuilder G1 G2 Zq ×
        Option (NonRevocInitProof G1 G2 Zq) × Option Int :=
      match credential_signature.r_credential, rev_reg,
          credential_pub_key.r_key, wit with
      | some r_cred, some r_reg, some r_pub_key, some w =>
        let proof := init_non_revocation_proof ops tauBytes rand.non_rev
            r_cred r_reg r_pub_key w
        ({ b with
            c_list := b.c_list ++ non_revoc_as_c_list ops proof.c_list,
            tau_list := b.tau_list ++ proof.tau_list_bytes },
         some proof,
         some (group_element_to_bignum ops proof.tau_list_params.m2))
      | _, _, _, _ => (b, none, none)
    match init_primary_proof rand.eq rand.ge credential_pub_key.p_key
        credential_signature.p_credential credential_values
        credential_schema sub_proof_request step.2.2 with
    | .error e => (.error e, step.1)
    | .ok primary_init_proof =>
      (.ok (),
       { step.1 with
          c_list := step.1.c_list ++ primary_init_as_c_list
            primary_init_proof,
          tau_list := step.1.tau_list ++ primary_init_as_tau_list
            primary_init_proof,
          init_proofs := ains step.1.init_proofs key_id
            { primary_init_proof, non_revoc_init_proof := step.2.1,
              credential_values, sub_proof_request, credential_schema } })

/-- Embeds `ProofBuilder::_finalize_non_revocation_proof`:
`x_i = tau_x_i - ch * c_x_i` in `Z_q`, componentwise over the 14 entries
(the zip of `as_list` views written fieldwise). -/
def finalize_non_revocation_proof {G1 G2 GT Zq : Type}
    (ops : PairingOps G1 G2 GT Zq) (init : NonRevocInitProof G1 G2 Zq)
    (c_h : Int) : NonRevocProof G1 G2 Zq :=
  let ch := bignum_to_group_element ops c_h
  let f := fun (x y : Zq) => ops.zqAdd x (ops.zqNeg (ops.zqMul ch y))
  { x_list :=
      { rho := f init.tau_list_params.rho init.c_list_params.rho,
        r := f init.tau_list_params.r init.c_list_params.r,
        r_prime := f init.tau_list_params.r_prime
          init.c_list_params.r_prime,
        r_prime_prime := f init.tau_list_params.r_prime_prime
          init.c_list_params.r_prime_prime,
        r_prime_prime_prime := f init.tau_list_params.r_prime_prime_prime
          init.c_list_params.r_prime_prime_prime,
        o := f init.tau_list_params.o init.c_list_params.o,
        o_prime := f init.tau_list_params.o_prime
          init.c_list_params.o_prime,
        m := f init.tau_list_params.m init.c_list_params.m,
        m_prime := f init.tau_list_params.m_prime
          init.c_list_params.m_prime,
        t := f init.tau_list_params.t init.c_list_params.t,
        t_prime := f init.tau_list_params.t_prime
          init.c_list_params.t_prime,
        m2 := f init.tau_list_params.m2 init.c_list_params.m2,
        s := f init.tau_list_params.s init.c_list_params.s,
        c := f init.tau_list_params.c init.c_list_params.c },
    c_list := init.c_list }

/-- The revealed-attribute collection step of `_finalize_eq_proof`. -/
def revealed_step (cred_values : CredentialValues) (acc : SMap Int)
    (attr : String) : CResult (SMap Int) :=
  match alookup cred_values.attrs_values attr with
  | none => .error (.invalidStructure "Encoded value not found")
  | some cur_val => .ok (ains acc attr cur_val.value)

/-- The per-attribute response step of `_finalize_eq_proof`:
`m_attr = m_tilde_attr + ch * a_attr`. -/
def eq_m_step (challenge : Int) (m_tilde : SMap Int)
    (cred_values : CredentialValues) (m : SMap Int) (k : String) :
    CResult (SMap Int) :=
  match alookup m_tilde k with
  | none => .error (.invalidStructure
      ("Value by key " ++ k ++ " not found in init_proof.mtilde"))
  | some cur_mtilde =>
    match alookup cred_values.attrs_values k with
    | none => .error (.invalidStructure
        ("Value by key " ++ k ++ " not found in attributes_values"))
    | some cur_val =>
      .ok (ains m k (challenge * cur_val.value + cur_mtilde))

/-- Embeds `ProofBuilder::_finalize_eq_proof`. -/
def finalize_eq_proof (init : PrimaryEqualInitProof) (challenge : Int)
    (cred_schema : CredentialSchema) (cred_values : CredentialValues)
    (sub_proof_request : SubProofRequest) : CResult PrimaryEqualProof :=
  let e := challenge * init.e_prime + init.e_tilde
  let v := challenge * init.v_prime + init.v_tilde
  match efoldl (eq_m_step challenge init.m_tilde cred_values)
      [] (unrevealed_attrs cred_schema sub_proof_request) with
  | .error e' => .error e'
  | .ok m =>
    let m2 := challenge * init.m2 + init.m2_tilde
    match efoldl (revealed_step cred_values) []
        sub_proof_request.revealed_attrs with
    | .error e' => .error e'
    | .ok revealed =>
        .ok { revealed_attrs := revealed, a_prime := init.a_prime, e, v,
              m, m2 }

/-- Indexing `map[key]` on a `BTreeMap` panics when the key is absent;
the embedding surfaces the panic as a distinguished error. -/
def bindex (m : SMap Int) (k : String) : CResult Int :=
  match alookup m k with
  | some v => .ok v
  | none => .error (.invalidStructure ("panic: no entry for key " ++ k))

/-- Embeds `ProofBuilder::_finalize_ge_proof`. -/
def finalize_ge_proof (c_h : Int) (init : PrimaryPredicateGEInitProof)
    (eq_proof : PrimaryEqualProof) : CResult PrimaryPredicateGEProof :=
  match efoldl (fun (st : SMap Int × SMap Int × Int) (i : Nat) =>
      match bindex init.u_tilde (toString i) with
      | .error e => .error e
      | .ok cur_utilde =>
        match bindex init.u (toString i) with
        | .error e => .error e
        | .ok cur_u =>
          match bindex init.r_tilde (toString i) with
          | .error e => .error e
          | .ok cur_rtilde =>
            match bindex init.r (toString i) with
            | .error e => .error e
            | .ok cur_r =>
              let new_u := c_h * cur_u + cur_utilde
              let new_r := c_h * cur_r + cur_rtilde
              match bindex init.r_tilde "DELTA" with
              | .error e => .error e
              | .ok cur_rtilde_delta =>
                match bindex init.r "DELTA" with
                | .error e => .error e
                | .ok r_delta_init =>
                  let new_delta := c_h * r_delta_init + cur_rtilde_delta
                  .ok (ains st.1 (toString i) new_u,
                       ains (ains st.2.1 (toString i) new_r) "DELTA"
                         new_delta,
                       st.2.2 + cur_u * cur_r))
      (([], [], 0) : SMap Int × SMap Int × Int)
      (List.range ITERATION) with
  | .error e => .error e
  | .ok (u, r, urproduct) =>
    match bindex init.r "DELTA" with
    | .error e => .error e
    | .ok r_delta =>
      let alpha := (r_delta - urproduct) * c_h + init.alpha_tilde
      match bindex eq_proof.m init.predicate.attr_name with
      | .error e => .error e
      | .ok mj =>
          .ok { u, r, mj, alpha, t := init.t, predicate := init.predicate }

/-- Embeds `ProofBuilder::_finalize_primary_proof`. -/
def finalize_primary_proof (init : PrimaryInitProof) (challenge : Int)
    (cred_schema : CredentialSchema) (cred_values : CredentialValues)
    (sub_proof_request : SubProofRequest) : CResult PrimaryProof :=
  match finalize_eq_proof init.eq_proof challenge cred_schema cred_values
      sub_proof_request with
  | .error e => .error e
  | .ok eq_proof =>
    match emapM (fun g => finalize_ge_proof challenge g eq_proof)
        init.ge_proofs with
    | .error e => .error e
    | .ok ge_proofs => .ok { eq_proof, ge_proofs }

/-- Embeds `ProofBuilder::finalize`: joint challenge over
`tau_list ++ c_list ++ nonce`, then per-credential finalization in the
map's order. -/
def ProofBuilder.finalize {G1 G2 GT Zq : Type}
    (H : List Bytes → Int) (ops : PairingOps G1 G2 GT Zq)
    (b : ProofBuilder G1 G2 Zq) (nonce : Int) :
    CResult (Proof G1 G2 Zq) :=
  let values := b.tau_list ++ b.c_list ++ [intBytes nonce]
  let challenge := H values
  match emapM (fun (kv : String × InitProof G1 G2 Zq) =>
      let non_revoc_proof := kv.2.non_revoc_init_proof.map
          (fun nri => finalize_non_revocation_proof ops nri challenge)
      match finalize_primary_proof kv.2.primary_init_proof challenge
          kv.2.credential_schema kv.2.credential_values
          kv.2.sub_proof_request with
      | .error e => .error e
      | .ok primary_proof =>
          .ok (kv.1, ({ primary_proof, non_revoc_proof } :
            SubProof G1 G2 Zq))) b.init_proofs with
  | .error e => .error e
  | .ok proofs =>
      .ok { proofs,
            aggregated_proof := { c_hash := challenge, c_list := b.c_list } }

/-- The Rust signature is `fn finalize(&self, nonce)`: the receiver is a
shared borrow, so the builder state threads through unchanged.  This
state-passing form makes that explicit. -/
def ProofBuilder.finalizeS {G1 G2 GT Zq : Type}
    (H : List Bytes → Int) (ops : PairingOps G1 G2 GT Zq)
    (b : ProofBuilder G1 G2 Zq) (nonce : Int) :
    CResult (Proof G1 G2 Zq) × ProofBuilder G1 G2 Zq :=
  (ProofBuilder.finalize H ops b nonce, b)

/-- The factor contributed to `U` by one blinded attribute:
`R_i^{a_i} mod n`. -/
def blinded_base (pk : CredentialPrimaryPublicKey)
    (kv : String × AttributeValue) : CResult Int :=
  match alookup pk.r kv.1 with
  | none => .error (.invalidStructure
      ("Value by key " ++ kv.1 ++ " not found in pk.r"))
  | some rk => .ok (powMod rk kv.2.value pk.n)

/-- Concrete pairing instance over plain integers (groups additive, the
pairing is multiplication, the target group additive), used to evaluate
the embedding on closed inputs. -/
def intPairing : PairingOps Int Int Int Int :=
  { pair := fun a b => a * b,
    gtMul := fun a b => a + b,
    gtInv := fun a => -a,
    gtEq := fun a b => a == b,
    g1Add := fun a b => a + b,
    g1Mul := fun a b => a * b,
    g2Add := fun a b => a + b,
    g2Mul := fun a b => a * b,
    zqAdd := fun a b => a + b,
    zqMul := fun a b => a * b,
    zqNeg := fun a => -a,
    zqToBytes := intBytes,
    bytesToZq := fun bs => Int.ofNat (bytesToNat bs),
    g1Bytes := intBytes,
    g2Bytes := intBytes }

/-- Trivial tau-list serialization for closed evaluation. -/
def noTauBytes : CredentialRevocationPublicKey Int Int →
    RevocationRegistry Int → NonRevocProofXList Int →
    NonRevocProofCList Int Int → List Bytes :=
  fun _ _ _ _ => []

/-- Constant hash functions for closed evaluation of the Fiat-Shamir
parameter. -/
def hashConst (c : Int) : List Bytes → Int := fun _ => c

/-- Concrete one-attribute schema for closed evaluation. -/
def wSchema : CredentialSchema := ⟨["a"]⟩

/-- Concrete credential values (attribute `a`, value 5, unblinded). -/
def wValues : CredentialValues := ⟨[("a", ⟨5, none⟩)]⟩

/-- Concrete primary public key over the toy modulus 15. -/
def wPk : CredentialPrimaryPublicKey :=
  { n := 15, s := 2, z := 8, rctxt := 1, r := [("a", 4)] }

/-- Concrete primary signature: `2^3 = 8 = z * rx^{-1} mod 15` once `v`
is unblinded to 2. -/
def wPsig : PrimaryCredentialSignature := { m_2 := 1, a := 2, e := 3, v := 1 }

/-- Concrete signature correctness proof matching `hashConst 7`. -/
def wScp : SignatureCorrectnessProof := { se := 0, c := 7 }

/-- Concrete credential signature without revocation part. -/
def wCsig : CredentialSignature Int Int Int :=
  { p_credential := wPsig, r_credential := none }

/-- Concrete credential public key without revocation part. -/
def wCpk : CredentialPublicKey Int Int := { p_key := wPk, r_key := none }

/-- Concrete blinding factors. -/
def wBf : CredentialSecretsBlindingFactors Int :=
  { v_prime := 1, vr_prime := none }

/-- Concrete sub-proof request: nothing revealed, no predicates. -/
def wReq : SubProofRequest := { revealed_attrs := [], predicates := [] }

/-- Concrete range-proof randomness. -/
def wGeRand : GeRand :=
  { r := fun _ => 1, r_delta := 1, u_tilde := fun _ => 1,
    r_tilde := fun _ => 1, r_tilde_delta := 1, alpha_tilde := 1 }

/-- Concrete all-zero group-order tuple. -/
def wXList : NonRevocProofXList Int :=
  ⟨0, 0, 0, 0, 0, 0, 0, 0, 0, 0, 0, 0, 0, 0⟩

/-- Concrete non-revocation randomness. -/
def wNonRevRand : NonRevRand Int :=
  { rho := 0, r := 0, r_prime := 0, r_prime_prime := 0,
    r_prime_prime_prime := 0, o := 0, o_prime := 0, tau := wXList }

/-- Concrete randomness for one `add_sub_proof_request` call. -/
def wRand : SubProofRand Int :=
  { eq := { m2_tilde := 1, r := 1, e_tilde := 1, v_tilde := 1,
            m_tilde := fun _ => 1 },
    ge := fun _ => wGeRand, non_rev := wNonRevRand }

/-- Concrete all-zero revocation public key. -/
def wRevPk : CredentialRevocationPublicKey Int Int :=
  ⟨0, 0, 0, 0, 0, 0, 0, 0, 0, 0⟩

/-- Concrete all-zero revocation registry accumulator key. -/
def wRevKeyPub : RevocationKeyPublic Int := ⟨0⟩

/-- Concrete all-zero revocation registry. -/
def wRevReg : RevocationRegistry Int := ⟨0⟩

/-- Concrete all-zero witness. -/
def wWitness : Witness Int := ⟨0⟩

/-- Concrete all-zero non-revocation credential. -/
def wRcred : NonRevocationCredentialSignature Int Int Int :=
  { sigma := 0, c := 0, vr_prime_prime := 0,
    witness_signature := ⟨0, 0, 0⟩, g_i := 0, i := 0, m2 := 0 }

/-- Concrete equality init proof for closed finalization. -/
def cEqInit7 : PrimaryEqualInitProof :=
  { a_prime := 2, t := 3, e_tilde := 4, e_prime := 5, v_tilde := 6,
    v_prime := 7, m_tilde := [("a", 3)], m2_tilde := 9, m2 := 10 }

/-- Concrete range init proof for closed finalization. -/
def cGeInit7 : PrimaryPredicateGEInitProof :=
  { c_list := [], tau_list := [],
    u := [("0", 1), ("1", 0), ("2", 0), ("3", 0)],
    u_tilde := [("0", 1), ("1", 1), ("2", 1), ("3", 1)],
    r := [("0", 1), ("1", 1), ("2", 1), ("3", 1), ("DELTA", 2)],
    r_tilde := [("0", 1), ("1", 1), ("2", 1), ("3", 1), ("DELTA", 2)],
    alpha_tilde := 3, predicate := ⟨"a", 4⟩,
    t := [("0", 1), ("1", 1), ("2", 1), ("3", 1), ("DELTA", 2)] }

/-- Concrete stored init proof for closed finalization. -/
def cIp7 : InitProof Int Int Int :=
  { primary_init_proof := { eq_proof := cEqInit7, ge_proofs := [cGeInit7] },
    non_revoc_init_proof := none,
    credential_values := ⟨[("a", ⟨5, none⟩)]⟩,
    sub_proof_request := ⟨[], []⟩, credential_schema := ⟨["a"]⟩ }

/-- Concrete builder holding `cIp7`. -/
def cB7 : ProofBuilder Int Int Int :=
  { init_proofs := [("k", cIp7)], c_list := [], tau_list := [] }

/-- The finalized GE sub-proof of `cB7` at challenge 1. -/
def cGe7 : PrimaryPredicateGEProof :=
  { u := [("0", 2), ("1", 1), ("2", 1), ("3", 1)],
    r := [("0", 2), ("DELTA", 4), ("1", 2), ("2", 2), ("3", 2)],
    mj := 8, alpha := 4,
    t := [("0", 1), ("1", 1), ("2", 1), ("3", 1), ("DELTA", 2)],
    predicate := ⟨"a", 4⟩ }

/-- The finalized sub-proof of `cB7` at challenge 1. -/
def cSp7 : SubProof Int Int Int :=
  { primary_proof :=
      { eq_proof := { revealed_attrs := [], a_prime := 2, e := 9, v := 13,
                      m := [("a", 8)], m2 := 19 },
        ge_proofs := [cGe7] },
    non_revoc_proof := none }

/-- The finalized proof of `cB7` at challenge 1. -/
def cP7 : Proof Int Int Int :=
  { proofs := [("k", cSp7)],
    aggregated_proof := { c_hash := 1, c_list := [] } }

/-- Concrete stored init proof without range predicates. -/
def cIp2 : InitProof Int Int Int :=
  { primary_init_proof := { eq_proof := cEqInit7, ge_proofs := [] },
    non_revoc_init_proof := none,
    credential_values := ⟨[("a", ⟨5, none⟩)]⟩,
    sub_proof_request := ⟨[], []⟩, credential_schema := ⟨["a"]⟩ }

/-- Concrete builder holding `cIp2`. -/
def cB2 : ProofBuilder Int Int Int :=
  { init_proofs := [("k2", cIp2)], c_list := [], tau_list := [] }

/-- The finalized sub-proof of `cB2` at challenge 7. -/
def cSp2 : SubProof Int Int Int :=
  { primary_proof :=
      { eq_proof := { revealed_attrs := [], a_prime := 2, e := 39,
                      v := 55, m := [("a", 38)], m2 := 79 },
        ge_proofs := [] },
    non_revoc_proof := none }

/-- The finalized proof of `cB2` at challenge 7. -/
def cP2 : Proof Int Int Int :=
  { proofs := [("k2", cSp2)],
    aggregated_proof := { c_hash := 7, c_list := [] } }

/-- Concrete key-correctness proof matching `hashConst 3`. -/
def wKcp : CredentialKeyCorrectnessProof := ⟨3, 1, [("a", 1)]⟩

/-- Concrete credential values with a blinded attribute. -/
def wBlindValues : CredentialValues := ⟨[("a", ⟨5, some 7⟩)]⟩

/-- Concrete blinding randomness. -/
def wBlindRand : BlindRand :=
  { v_prime := 3, v_dash_tilde := 1, m_tilde := fun _ => 1,
    r_tilde := fun _ => 1 }

/-- The three conditions of the signature correctness check (spec 4.2):
`e` prime, `A^e = Q = Z * Rx^{-1} mod n`, and the transcript hash of
`(Q, A, A^{c + se*e}, nonce)` equals the proof's `c`. -/
def signature_check_conditions (H : List Bytes → Int)
    (p_cred : PrimaryCredentialSignature)
    (scp : SignatureCorrectnessProof)
    (p_pub_key : CredentialPrimaryPublicKey) (nonce : Int) (rx : Int) :
    Prop :=
  Nat.Prime p_cred.e.toNat ∧
  powMod p_cred.a p_cred.e p_pub_key.n
    = (p_pub_key.z * modInv rx p_pub_key.n) % p_pub_key.n ∧
  scp.c = H [intBytes ((p_pub_key.z * modInv rx p_pub_key.n)
      % p_pub_key.n)
    ++ intBytes p_cred.a
    ++ intBytes (powMod p_cred.a (scp.c + scp.se * p_cred.e)
        p_pub_key.n)
    ++ intBytes nonce]

/-- The three pairing identities of the non-revocation witness check
(spec 4.3), stated over the same group operations the code uses. -/
def witness_pairing_identities {G1 G2 GT Zq : Type}
    (ops : PairingOps G1 G2 GT Zq)
    (r_cred : NonRevocationCredentialSignature G1 G2 Zq)
    (cred_rev_pub_key : CredentialRevocationPublicKey G1 G2)
    (rev_key_pub : RevocationKeyPublic GT)
    (rev_reg : RevocationRegistry G2) (wit : Witness G2)
    (r_cnxt_m2 : Int) : Prop :=
  ops.gtEq (ops.gtMul
      (ops.pair r_cred.witness_signature.g_i rev_reg.accum)
      (ops.gtInv (ops.pair cred_rev_pub_key.g wit.omega)))
    rev_key_pub.z = true ∧
  ops.gtEq (ops.pair (ops.g1Add cred_rev_pub_key.pk r_cred.g_i)
      r_cred.witness_signature.sigma_i)
    (ops.pair cred_rev_pub_key.g cred_rev_pub_key.g_dash) = true ∧
  ops.gtEq (ops.pair r_cred.sigma
      (ops.g2Add cred_rev_pub_key.y
        (ops.g2Mul cred_rev_pub_key.h_cap r_cred.c)))
    (ops.pair
      (ops.g1Add
        (ops.g1Add
          (ops.g1Add cred_rev_pub_key.h0
            (ops.g1Mul cred_rev_pub_key.h1
              (ops.bytesToZq (intBytes r_cnxt_m2))))
          (ops.g1Mul cred_rev_pub_key.h2 r_cred.vr_prime_prime))
        r_cred.g_i)
      cred_rev_pub_key.h_cap) = true

/-- Concrete credential values whose attribute is the maximal `i32`. -/
def cValuesC3 : CredentialValues := ⟨[("a", ⟨2147483647, none⟩)]⟩

/-- Concrete request with the GE predicate `a >= -2`. -/
def cReqC3 : SubProofRequest :=
  { revealed_attrs := [], predicates := [⟨"a", -2⟩] }

/-- Concrete credential signature with a revocation part. -/
def cCsigRev : CredentialSignature Int Int Int :=
  { p_credential := wPsig, r_credential := some wRcred }

/-- Concrete credential public key with a revocation part. -/
def cCpkRev : CredentialPublicKey Int Int :=
  { p_key := wPk, r_key := some wRevPk }

theorem alookup_ains_self {α : Type} (m : SMap α) (k : String) (v : α) :
    alookup (ains m k v) k = some v := by
  induction m with
  | nil => simp [ains, alookup]
  | cons hd tl ih =>
      obtain ⟨k', v'⟩ := hd
      by_cases h : k' = k <;> simp [ains, alookup, h, ih]

theorem alookup_ains_ne {α : Type} (m : SMap α) (k k' : String) (v : α)
    (h : k' ≠ k) : alookup (ains m k' v) k = alookup m k := by
  induction m with
  | nil => simp [ains, alookup, h]
  | cons hd tl ih =>
      obtain ⟨k0, v0⟩ := hd
      by_cases h0 : k0 = k'
      · subst h0; simp [ains, alookup, h]
      · by_cases h1 : k0 = k <;> simp [ains, alookup, h0, h1, ih, Ne.symm h]

theorem emapM_mem {α β : Type} {f : α → CResult β} {l : List α}
    {l' : List β} {y : β} (h : emapM f l = .ok l') (hy : y ∈ l') :
    ∃ x ∈ l, f x = .ok y := by
  induction l generalizing l' with
  | nil =>
      simp [emapM] at h
      subst h; simp at hy
  | cons x xs ih =>
      simp only [emapM] at h
      cases hfx : f x with
      | error e => rw [hfx] at h; exact absurd h (by simp)
      | ok y0 =>
          rw [hfx] at h
          cases hrest : emapM f xs with
          | error e => rw [hrest] at h; exact absurd h (by simp)
          | ok ys =>
              rw [hrest] at h
              injection h with h
              subst h
              rcases List.mem_cons.mp hy with hy | hy
              · subst hy; exact ⟨x, by simp, hfx⟩
              · obtain ⟨x', hx', hfx'⟩ := ih hrest hy
                exact ⟨x', by simp [hx'], hfx'⟩

theorem alookup_mem {α : Type} {m : SMap α} {k : String} {v : α}
    (h : alookup m k = some v) : (k, v) ∈ m := by
  induction m with
  | nil => simp [alookup] at h
  | cons hd tl ih =>
      obtain ⟨k0, v0⟩ := hd
      by_cases h0 : k0 = k
      · subst h0
        simp [alookup] at h
        subst h; simp
      · simp [alookup, h0] at h
        exact List.mem_cons_of_mem _ (ih h)

theorem emapM_ok_of_forall {α β : Type} {f : α → CResult β} {l : List α}
    (h : ∀ x ∈ l, ∃ y, f x = .ok y) : ∃ l', emapM f l = .ok l' := by
  induction l with
  | nil => exact ⟨[], rfl⟩
  | cons x xs ih =>
      obtain ⟨y, hy⟩ := h x (by simp)
      obtain ⟨ys, hys⟩ := ih (fun x' hx' => h x' (by simp [hx']))
      exact ⟨y :: ys, by simp [emapM, hy, hys]⟩

theorem mul_emod_step (u f p n : Int) :
    ((u * f) % n * p) % n = (u * (f * p)) % n := by
  have h1 : (u * f) % n * p ≡ u * f * p [ZMOD n] :=
    Int.ModEq.mul_right p (Int.emod_emod_of_dvd _ dvd_rfl)
  calc ((u * f) % n * p) % n = (u * f * p) % n := h1
    _ = (u * (f * p)) % n := by rw [mul_assoc]

theorem get_mtilde_aux (f : String → Int) :
    ∀ (l : List String) (acc : SMap Int) (a : String),
      (a ∈ l → alookup (l.foldl (fun acc a => ains acc a (f a)) acc) a
        = some (f a)) ∧
      (a ∉ l → alookup (l.foldl (fun acc a => ains acc a (f a)) acc) a
        = alookup acc a) := by
  intro l
  induction l with
  | nil => intro acc a; exact ⟨by simp, fun _ => rfl⟩
  | cons b bs ih =>
      intro acc a
      constructor
      · intro ha
        by_cases hbs : a ∈ bs
        · simpa using (ih (ains acc b (f b)) a).1 hbs
        · have hab : a = b := by
            rcases List.mem_cons.mp ha with h | h
            · exact h
            · exact absurd h hbs
          subst hab
          have := (ih (ains acc a (f a)) a).2 hbs
          simpa [alookup_ains_self] using this
      · intro ha
        have hab : a ≠ b := fun h => ha (by simp [h])
        have hbs : a ∉ bs := fun h => ha (by simp [h])
        have := (ih (ains acc b (f b)) a).2 hbs
        simpa [alookup_ains_ne _ _ _ _ (Ne.symm hab)] using this

theorem get_mtilde_lookup (f : String → Int) (l : List String) (a : String)
    (ha : a ∈ l) : alookup (get_mtilde f l) a = some (f a) :=
  (get_mtilde_aux f l [] a).1 ha

theorem eq_m_fold_aux (ch : Int) (mt : SMap Int) (cv : CredentialValues) :
    ∀ (l : List String) (acc m : SMap Int),
      efoldl (eq_m_step ch mt cv) acc l = .ok m →
      (∀ a ∈ l, ∃ x av, alookup mt a = some x ∧
        alookup cv.attrs_values a = some av ∧
        alookup m a = some (ch * av.value + x)) ∧
      (∀ a, a ∉ l → alookup m a = alookup acc a) := by
  intro l
  induction l with
  | nil =>
      intro acc m h
      simp [efoldl] at h
      subst h
      exact ⟨by simp, fun a _ => rfl⟩
  | cons k ks ih =>
      intro acc m h
      simp only [efoldl] at h
      cases hstep : eq_m_step ch mt cv acc k with
      | error e => rw [hstep] at h; exact absurd h (by simp)
      | ok acc' =>
          rw [hstep] at h
          unfold eq_m_step at hstep
          cases hmt : alookup mt k with
          | none => rw [hmt] at hstep; exact absurd hstep (by simp)
          | some x =>
              rw [hmt] at hstep
              cases hav : alookup cv.attrs_values k with
              | none => rw [hav] at hstep; exact absurd hstep (by simp)
              | some av =>
                  rw [hav] at hstep
                  injection hstep with hstep
                  subst hstep
                  obtain ⟨ih1, ih2⟩ := ih _ _ h
                  constructor
                  · intro a ha
                    by_cases hks : a ∈ ks
                    · exact ih1 a hks
                    · have hak : a = k := by
                        rcases List.mem_cons.mp ha with h' | h'
                        · exact h'
                        · exact absurd h' hks
                      subst hak
                      exact ⟨x, av, hmt, hav,
                        by rw [ih2 a hks, alookup_ains_self]⟩
                  · intro a ha
                    have hak : a ≠ k := fun h' => ha (by simp [h'])
                    have hks : a ∉ ks := fun h' => ha (by simp [h'])
                    rw [ih2 a hks, alookup_ains_ne _ _ _ _ (Ne.symm hak)]

theorem finalize_eq_ok {init : PrimaryEqualInitProof} {ch : Int}
    {schema : CredentialSchema} {cv : CredentialValues}
    {req : SubProofRequest} {ep : PrimaryEqualProof}
    (h : finalize_eq_proof init ch schema cv req = .ok ep) :
    ep.a_prime = init.a_prime ∧
    ep.e = ch * init.e_prime + init.e_tilde ∧
    ep.v = ch * init.v_prime + init.v_tilde ∧
    ep.m2 = ch * init.m2 + init.m2_tilde ∧
    ∀ a ∈ unrevealed_attrs schema req, ∃ x av,
      alookup init.m_tilde a = some x ∧
      alookup cv.attrs_values a = some av ∧
      alookup ep.m a = some (ch * av.value + x) := by
  unfold finalize_eq_proof at h
  cases hm : efoldl (eq_m_step ch init.m_tilde cv) []
      (unrevealed_attrs schema req) with
  | error e => rw [hm] at h; exact absurd h (by simp)
  | ok m =>
      rw [hm] at h
      cases hrev : efoldl (revealed_step cv) [] req.revealed_attrs with
      | error e => rw [hrev] at h; exact absurd h (by simp)
      | ok revealed =>
          rw [hrev] at h
          injection h with h
          subst h
          refine ⟨rfl, rfl, rfl, rfl, ?_⟩
          intro a ha
          exact (eq_m_fold_aux ch init.m_tilde cv _ _ _ hm).1 a ha

theorem finalize_ge_mj {c_h : Int} {g : PrimaryPredicateGEInitProof}
    {ep : PrimaryEqualProof} {gp : PrimaryPredicateGEProof}
    (h : finalize_ge_proof c_h g ep = .ok gp) :
    alookup ep.m gp.predicate.attr_name = some gp.mj := by
  unfold finalize_ge_proof at h
  split at h
  · exact absurd h (by simp)
  · split at h
    · exact absurd h (by simp)
    · split at h
      · exact absurd h (by simp)
      · rename_i mj hmj
        injection h with h
        subst h
        unfold bindex at hmj
        split at hmj
        · rename_i hl
          injection hmj with hmj
          subst hmj
          exact hl
        · exact absurd hmj (by simp)

theorem gen_blinded_aux_u (pk : CredentialPrimaryPublicKey) :
    ∀ (l : List (String × AttributeValue)) (u : Int) (comm : SMap Int)
      (u' : Int) (comm' : SMap Int),
      u % pk.n = u →
      gen_blinded_aux pk l u comm = .ok (u', comm') →
      ∃ factors, emapM (blinded_base pk)
          (l.filter (fun kv => kv.2.blinding_factor.isSome)) = .ok factors ∧
        u' = (u * factors.prod) % pk.n := by
  intro l
  induction l with
  | nil =>
      intro u comm u' comm' hu h
      simp [gen_blinded_aux] at h
      refine ⟨[], rfl, ?_⟩
      rw [List.prod_nil, mul_one, hu, h.1]
  | cons kv rest ih =>
      intro u comm u' comm' hu h
      obtain ⟨k, av⟩ := kv
      simp only [gen_blinded_aux] at h
      by_cases hb : av.blinding_factor.isSome
      · rw [if_pos hb] at h
        cases hr : alookup pk.r k with
        | none => rw [hr] at h; exact absurd h (by simp)
        | some rk =>
            rw [hr] at h
            cases hbf : av.blinding_factor with
            | none => rw [hbf] at hb; simp at hb
            | some bf =>
                rw [hbf] at h
                have hu1 : (u * powMod rk av.value pk.n) % pk.n % pk.n
                    = (u * powMod rk av.value pk.n) % pk.n :=
                  Int.emod_emod_of_dvd _ dvd_rfl
                obtain ⟨fs, hfs, hprod⟩ := ih _ _ _ _ hu1 h
                refine ⟨powMod rk av.value pk.n :: fs, ?_, ?_⟩
                · simp only [List.filter_cons, hb]
                  simp only [blinded_base, hr, emapM, hfs]
                · rw [hprod, List.prod_cons, mul_emod_step]
      · rw [if_neg hb] at h
        obtain ⟨fs, hfs, hprod⟩ := ih _ _ _ _ hu h
        refine ⟨fs, ?_, hprod⟩
        have hb' : av.blinding_factor.isSome = false := by
          simpa using hb
        simp only [List.filter_cons, hb']
        exact hfs

theorem gen_blinded_aux_frame (pk : CredentialPrimaryPublicKey) :
    ∀ (l : List (String × AttributeValue)) (u : Int) (comm : SMap Int)
      (u' : Int) (comm' : SMap Int) (k : String),
      gen_blinded_aux pk l u comm = .ok (u', comm') →
      k ∉ l.map Prod.fst →
      alookup comm' k = alookup comm k := by
  intro l
  induction l with
  | nil =>
      intro u comm u' comm' k h _
      simp [gen_blinded_aux] at h
      rw [h.2]
  | cons kv rest ih =>
      intro u comm u' comm' k h hk
      obtain ⟨k0, av⟩ := kv
      have hk0 : k ≠ k0 := fun h' => hk (by simp [h'])
      have hkrest : k ∉ rest.map Prod.fst := fun h' => hk (by simp [h'])
      simp only [gen_blinded_aux] at h
      by_cases hb : av.blinding_factor.isSome
      · rw [if_pos hb] at h
        cases hr : alookup pk.r k0 with
        | none => rw [hr] at h; exact absurd h (by simp)
        | some rk =>
            rw [hr] at h
            cases hbf : av.blinding_factor with
            | none => rw [hbf] at hb; simp at hb
            | some bf =>
                rw [hbf] at h
                rw [ih _ _ _ _ _ h hkrest,
                  alookup_ains_ne _ _ _ _ (Ne.symm hk0)]
      · rw [if_neg hb] at h
        exact ih _ _ _ _ _ h hkrest

theorem gen_blinded_aux_comm (pk : CredentialPrimaryPublicKey) :
    ∀ (l : List (String × AttributeValue)),
      (l.map Prod.fst).Nodup →
      ∀ (u : Int) (comm : SMap Int) (u' : Int) (comm' : SMap Int)
        (k : String) (av : AttributeValue) (bf : Int),
      gen_blinded_aux pk l u comm = .ok (u', comm') →
      alookup l k = some av → av.blinding_factor = some bf →
      alookup comm' k = some (get_pedersen_commitment pk.s bf pk.z
        av.value pk.n) := by
  intro l
  induction l with
  | nil => intro _ u comm u' comm' k av bf _ hl; simp [alookup] at hl
  | cons kv rest ih =>
      intro hnd u comm u' comm' k av bf h hl hbf
      obtain ⟨k0, av0⟩ := kv
      rw [List.map_cons, List.nodup_cons] at hnd
      have hnd' : (rest.map Prod.fst).Nodup := hnd.2
      by_cases hkk : k0 = k
      · subst hkk
        simp [alookup] at hl
        subst hl
        simp only [gen_blinded_aux] at h
        have hb : av0.blinding_factor.isSome = true := by rw [hbf]; rfl
        rw [if_pos hb] at h
        cases hr : alookup pk.r k0 with
        | none => rw [hr] at h; exact absurd h (by simp)
        | some rk =>
            rw [hr] at h
            rw [hbf] at h
            rw [gen_blinded_aux_frame pk _ _ _ _ _ _ h hnd.1,
              alookup_ains_self]
      · have hl' : alookup rest k = some av := by
          simpa [alookup, hkk] using hl
        simp only [gen_blinded_aux] at h
        by_cases hb : av0.blinding_factor.isSome
        · rw [if_pos hb] at h
          cases hr : alookup pk.r k0 with
          | none => rw [hr] at h; exact absurd h (by simp)
          | some rk =>
              rw [hr] at h
              cases hbf0 : av0.blinding_factor with
              | none => rw [hbf0] at hb; simp at hb
              | some bf0 =>
                  rw [hbf0] at h
                  exact ih hnd' _ _ _ _ _ _ _ h hl' hbf
        · rw [if_neg hb] at h
          exact ih hnd' _ _ _ _ _ _ _ h hl' hbf

theorem gen_blinded_aux_missing (pk : CredentialPrimaryPublicKey) :
    ∀ (l : List (String × AttributeValue)),
      (∃ kv ∈ l, kv.2.blinding_factor.isSome = true ∧
        alookup pk.r kv.1 = none) →
      ∀ (u : Int) (comm : SMap Int),
      ∃ msg, gen_blinded_aux pk l u comm =
        .error (.invalidStructure msg) := by
  intro l
  induction l with
  | nil => intro h; simp at h
  | cons kv rest ih =>
      intro h u comm
      obtain ⟨k0, av0⟩ := kv
      simp only [gen_blinded_aux]
      by_cases hb : av0.blinding_factor.isSome
      · rw [if_pos hb]
        cases hr : alookup pk.r k0 with
        | none => exact ⟨_, rfl⟩
        | some rk =>
            cases hbf0 : av0.blinding_factor with
            | none => rw [hbf0] at hb; simp at hb
            | some bf0 =>
                have h' : ∃ kv ∈ rest, kv.2.blinding_factor.isSome = true ∧
                    alookup pk.r kv.1 = none := by
                  rcases h with ⟨kv', hkv', hsome, hnone⟩
                  rcases List.mem_cons.mp hkv' with h' | h'
                  · subst h'
                    simp only at hsome hnone
                    rw [hr] at hnone
                    exact absurd hnone (by simp)
                  · exact ⟨kv', h', hsome, hnone⟩
                exact ih h' _ _
      · rw [if_neg hb]
        have h' : ∃ kv ∈ rest, kv.2.blinding_factor.isSome = true ∧
            alookup pk.r kv.1 = none := by
          rcases h with ⟨kv', hkv', hsome, hnone⟩
          rcases List.mem_cons.mp hkv' with h' | h'
          · subst h'
            simp only at hsome
            rw [hsome] at hb
            exact absurd rfl hb
          · exact ⟨kv', h', hsome, hnone⟩
        exact ih h' _ _

/-- C10: if any one of the six revocation inputs (the signature's
`r_credential`, the blinding factors' `vr_prime`, the public key's
`r_key`, `rev_key_pub`, `rev_reg`, `witness`) is absent, then
`process_credential_signature` performs no revocation processing at all:
its result is exactly the primary pipeline's result, `r_credential`
(hence `vr_prime_prime`) is returned unchanged and no pairing identity
is evaluated, so partially supplied revocation data is silently ignored
and the call returns `Ok` whenever the primary checks pass. -/
theorem claim_C10_partial_revocation_ignored {G1 G2 GT Zq : Type}
    (H : List Bytes → Int) (ops : PairingOps G1 G2 GT Zq)
    (sig : CredentialSignature G1 G2 Zq) (values : CredentialValues)
    (scp : SignatureCorrectnessProof)
    (bf : CredentialSecretsBlindingFactors Zq)
    (pk : CredentialPublicKey G1 G2) (nonce : Int)
    (rkp : Option (RevocationKeyPublic GT))
    (rreg : Option (RevocationRegistry G2)) (w : Option (Witness G2))
    (h : sig.r_credential = none ∨ bf.vr_prime = none ∨
      pk.r_key = none ∨ rkp = none ∨ rreg = none ∨ w = none) :
    process_credential_signature H ops sig values scp bf pk nonce rkp
      rreg w =
    (check_signature_correctness_proof H
        (process_primary_credential sig.p_credential bf.v_prime) values
        scp pk.p_key nonce).map
      (fun _ =>
        { p_credential :=
            process_primary_credential sig.p_credential bf.v_prime,
          r_credential := sig.r_credential }) := by
  obtain ⟨pc, rcred⟩ := sig
  obtain ⟨vp, vrp⟩ := bf
  obtain ⟨pkp, pkr⟩ := pk
  cases rcred <;> cases vrp <;> cases pkr <;> cases rkp <;> cases rreg <;>
    cases w <;>
    first
      | (simp only [process_credential_signature]
         cases check_signature_correctness_proof H
             (process_primary_credential pc vp) values scp pkp nonce <;>
           rfl)
      | (exfalso; rcases h with h | h | h | h | h | h <;> simp at h)

/-- Closed instance of C10: with the witness argument absent but all
other revocation data supplied, processing returns the primary result
with `r_credential` untouched. -/
theorem claim_C10_witness :
    ((some wRcred : Option (NonRevocationCredentialSignature Int Int Int))
        = none ∨
      (some (0 : Int) : Option Int) = none ∨
      (some wRevPk : Option (CredentialRevocationPublicKey Int Int))
        = none ∨
      (some wRevKeyPub : Option (RevocationKeyPublic Int)) = none ∨
      (some wRevReg : Option (RevocationRegistry Int)) = none ∨
      (none : Option (Witness Int)) = none) ∧
    process_credential_signature (hashConst 7) intPairing
      { p_credential := wPsig, r_credential := some wRcred } wValues wScp
      { v_prime := 1, vr_prime := some 0 }
      { p_key := wPk, r_key := some wRevPk } 9
      (some wRevKeyPub) (some wRevReg) none =
    (check_signature_correctness_proof (hashConst 7)
        (process_primary_credential wPsig 1) wValues wScp wPk 9).map
      (fun _ =>
        { p_credential := process_primary_credential wPsig 1,
          r_credential := some wRcred }) := by
  refine ⟨by simp, ?_⟩
  exact claim_C10_partial_revocation_ignored (hashConst 7) intPairing
    { p_credential := wPsig, r_credential := some wRcred } wValues wScp
    { v_prime := 1, vr_prime := some 0 }
    { p_key := wPk, r_key := some wRevPk } 9
    (some wRevKeyPub) (some wRevReg) none
    (by simp)

/-- C9 (amended): `ProofBuilder::finalize` takes the builder by shared
reference (`&self`) and does not consume it: the builder state threads
through `finalize` unchanged, and any subsequent
`add_sub_proof_request` behaves exactly as it would have without the
intervening `finalize` call. -/
theorem claim_C9_finalize_not_consuming {G1 G2 GT Zq : Type}
    (H : List Bytes → Int) (ops : PairingOps G1 G2 GT Zq)
    (b : ProofBuilder G1 G2 Zq) (nonce : Int) :
    (ProofBuilder.finalizeS H ops b nonce).2 = b ∧
    ∀ (tauBytes : CredentialRevocationPublicKey G1 G2 →
        RevocationRegistry G2 → NonRevocProofXList Zq →
        NonRevocProofCList G1 G2 → List Bytes)
      (rand : SubProofRand Zq) (key_id : String)
      (req : SubProofRequest) (schema : CredentialSchema)
      (csig : CredentialSignature G1 G2 Zq) (values : CredentialValues)
      (cpk : CredentialPublicKey G1 G2)
      (rreg : Option (RevocationRegistry G2)) (w : Option (Witness G2)),
      add_sub_proof_request ops tauBytes rand
          (ProofBuilder.finalizeS H ops b nonce).2 key_id req schema csig
          values cpk rreg w =
        add_sub_proof_request ops tauBytes rand b key_id req schema csig
          values cpk rreg w :=
  ⟨rfl, fun _ _ _ _ _ _ _ _ _ _ => rfl⟩

/-- Counterexample to C9 as stated: after a successful `finalize`, the
builder's state is still available unchanged, and both a further
`add_sub_proof_request` and another `finalize` succeed on it, so the
builder is not single-use and `finalize` does not end its lifecycle. -/
theorem claim_C9_counterexample :
    (ProofBuilder.finalize (hashConst 1) intPairing
        (new_proof_builder Int Int Int) 5).isOk = true ∧
    (add_sub_proof_request intPairing noTauBytes wRand
        (new_proof_builder Int Int Int) "cred1" wReq wSchema wCsig wValues
        wCpk none none).1 = .ok () ∧
    (ProofBuilder.finalize (hashConst 1) intPairing
        (add_sub_proof_request intPairing noTauBytes wRand
          (new_proof_builder Int Int Int) "cred1" wReq wSchema wCsig
          wValues wCpk none none).2 5).isOk = true :=
  ⟨rfl, rfl, rfl⟩

theorem add_sub_ok_state {G1 G2 GT Zq : Type}
    (ops : PairingOps G1 G2 GT Zq)
    (tauBytes : CredentialRevocationPublicKey G1 G2 →
      RevocationRegistry G2 → NonRevocProofXList Zq →
      NonRevocProofCList G1 G2 → List Bytes)
    (rand : SubProofRand Zq) (b : ProofBuilder G1 G2 Zq)
    (key_id : String) (req : SubProofRequest)
    (schema : CredentialSchema) (csig : CredentialSignature G1 G2 Zq)
    (values : CredentialValues) (cpk : CredentialPublicKey G1 G2)
    (rreg : Option (RevocationRegistry G2)) (w : Option (Witness G2))
    (h : (add_sub_proof_request ops tauBytes rand b key_id req schema
        csig values cpk rreg w).1 = .ok ()) :
    ∃ ip, (add_sub_proof_request ops tauBytes rand b key_id req schema
        csig values cpk rreg w).2.init_proofs
      = ains b.init_proofs key_id ip ∧
      ip.credential_values = values ∧ ip.sub_proof_request = req ∧
      ip.credential_schema = schema ∧
      ∃ m2t, init_primary_proof rand.eq rand.ge cpk.p_key
        csig.p_credential values schema req m2t
        = .ok ip.primary_init_proof := by
  obtain ⟨pc, rcred⟩ := csig
  obtain ⟨pkp, pkr⟩ := cpk
  cases hcons : check_add_sub_proof_request_params_consistency values req
      schema with
  | error e => simp [add_sub_proof_request, hcons] at h
  | ok u =>
      cases u
      cases rcred <;> cases rreg <;> cases pkr <;> cases w <;>
        (simp only [add_sub_proof_request, hcons] at h ⊢
         split at h
         · simp at h
         · rename_i pip hpip
           exact ⟨_, rfl, rfl, rfl, rfl, _, hpip⟩)

/-- C8: calling `add_sub_proof_request` twice with the same `key_id`
(both calls succeeding) raises no error, and afterwards `init_proofs`
maps that `key_id` to the `InitProof` built from the second call's
inputs: the later insertion overwrites the earlier one (which the first
call had recorded). -/
theorem claim_C8_duplicate_key_id_overwrites {G1 G2 GT Zq : Type}
    (ops : PairingOps G1 G2 GT Zq)
    (tauBytes : CredentialRevocationPublicKey G1 G2 →
      RevocationRegistry G2 → NonRevocProofXList Zq →
      NonRevocProofCList G1 G2 → List Bytes)
    (rand1 rand2 : SubProofRand Zq) (b0 : ProofBuilder G1 G2 Zq)
    (key_id : String) (req1 : SubProofRequest)
    (schema1 : CredentialSchema) (csig1 : CredentialSignature G1 G2 Zq)
    (values1 : CredentialValues) (cpk1 : CredentialPublicKey G1 G2)
    (rreg1 : Option (RevocationRegistry G2)) (w1 : Option (Witness G2))
    (req2 : SubProofRequest) (schema2 : CredentialSchema)
    (csig2 : CredentialSignature G1 G2 Zq) (values2 : CredentialValues)
    (cpk2 : CredentialPublicKey G1 G2)
    (rreg2 : Option (RevocationRegistry G2)) (w2 : Option (Witness G2))
    (h1 : (add_sub_proof_request ops tauBytes rand1 b0 key_id req1
        schema1 csig1 values1 cpk1 rreg1 w1).1 = .ok ())
    (h2 : (add_sub_proof_request ops tauBytes rand2
        (add_sub_proof_request ops tauBytes rand1 b0 key_id req1 schema1
          csig1 values1 cpk1 rreg1 w1).2 key_id req2 schema2 csig2
        values2 cpk2 rreg2 w2).1 = .ok ()) :
    (∃ ip1, alookup (add_sub_proof_request ops tauBytes rand1 b0 key_id
        req1 schema1 csig1 values1 cpk1 rreg1 w1).2.init_proofs key_id
        = some ip1 ∧ ip1.credential_values = values1) ∧
    ∃ ip2, alookup (add_sub_proof_request ops tauBytes rand2
        (add_sub_proof_request ops tauBytes rand1 b0 key_id req1 schema1
          csig1 values1 cpk1 rreg1 w1).2 key_id req2 schema2 csig2
        values2 cpk2 rreg2 w2).2.init_proofs key_id = some ip2 ∧
      ip2.credential_values = values2 ∧ ip2.sub_proof_request = req2 ∧
      ip2.credential_schema = schema2 ∧
      ∃ m2t, init_primary_proof rand2.eq rand2.ge cpk2.p_key
        csig2.p_credential values2 schema2 req2 m2t
        = .ok ip2.primary_init_proof := by
  obtain ⟨ip1, he1, hv1, _, _, _⟩ := add_sub_ok_state ops tauBytes rand1
    b0 key_id req1 schema1 csig1 values1 cpk1 rreg1 w1 h1
  obtain ⟨ip2, he2, hv2, hr2, hs2, m2t, hp2⟩ := add_sub_ok_state ops
    tauBytes rand2 _ key_id req2 schema2 csig2 values2 cpk2 rreg2 w2 h2
  refine ⟨⟨ip1, ?_, hv1⟩, ip2, ?_, hv2, hr2, hs2, m2t, hp2⟩
  · rw [he1, alookup_ains_self]
  · rw [he2, alookup_ains_self]

/-- Closed instance of C8: two successful calls under the same key id;
afterwards the stored credential values are the second call's. -/
theorem claim_C8_witness :
    (add_sub_proof_request intPairing noTauBytes wRand
        (new_proof_builder Int Int Int) "cred1" wReq wSchema wCsig
        wValues wCpk none none).1 = .ok () ∧
    (add_sub_proof_request intPairing noTauBytes wRand
        (add_sub_proof_request intPairing noTauBytes wRand
          (new_proof_builder Int Int Int) "cred1" wReq wSchema wCsig
          wValues wCpk none none).2 "cred1" wReq wSchema wCsig
        ⟨[("a", ⟨7, none⟩)]⟩ wCpk none none).1 = .ok () ∧
    (alookup (add_sub_proof_request intPairing noTauBytes wRand
        (add_sub_proof_request intPairing noTauBytes wRand
          (new_proof_builder Int Int Int) "cred1" wReq wSchema wCsig
          wValues wCpk none none).2 "cred1" wReq wSchema wCsig
        ⟨[("a", ⟨7, none⟩)]⟩ wCpk none none).2.init_proofs
      "cred1").map (fun ip => ip.credential_values)
      = some ⟨[("a", ⟨7, none⟩)]⟩ := by
  refine ⟨rfl, rfl, ?_⟩
  obtain ⟨_, ip2, hl2, hv2, _⟩ :=
    claim_C8_duplicate_key_id_overwrites intPairing noTauBytes wRand
      wRand (new_proof_builder Int Int Int) "cred1" wReq wSchema wCsig
      wValues wCpk none none wReq wSchema wCsig ⟨[("a", ⟨7, none⟩)]⟩ wCpk
      none none rfl rfl
  rw [hl2]
  simp [hv2]

/-- C7: in every finalized proof, each GE sub-proof's scalar `mj` equals
the equality sub-proof's response `m[attr]` for the predicate's
attribute — the shared scalar is read from the equality proof, never
resampled. -/
theorem claim_C7_ge_shares_eq_response {G1 G2 GT Zq : Type}
    (H : List Bytes → Int) (ops : PairingOps G1 G2 GT Zq)
    (b : ProofBuilder G1 G2 Zq) (nonce : Int) (p : Proof G1 G2 Zq)
    (h : ProofBuilder.finalize H ops b nonce = .ok p) :
    ∀ kid sp ge, alookup p.proofs kid = some sp →
      ge ∈ sp.primary_proof.ge_proofs →
      alookup sp.primary_proof.eq_proof.m ge.predicate.attr_name
        = some ge.mj := by
  intro kid sp ge hsp hge
  unfold ProofBuilder.finalize at h
  dsimp only at h
  split at h
  · exact absurd h (by simp)
  · rename_i proofs heq
    injection h with h
    subst h
    simp only at hsp
    obtain ⟨⟨kid0, ip⟩, hin, hf⟩ := emapM_mem heq (alookup_mem hsp)
    simp only at hf
    split at hf
    · exact absurd hf (by simp)
    · rename_i pp hpp
      injection hf with hf
      rw [Prod.mk.injEq] at hf
      obtain ⟨hk, hsp'⟩ := hf
      subst hk
      unfold finalize_primary_proof at hpp
      split at hpp
      · exact absurd hpp (by simp)
      · rename_i ep hep
        split at hpp
        · exact absurd hpp (by simp)
        · rename_i gps hgps
          injection hpp with hpp
          subst hpp
          rw [← hsp'] at hge
          simp only at hge
          obtain ⟨g, hgin, hgf⟩ := emapM_mem hgps hge
          rw [← hsp']
          simp only
          exact finalize_ge_mj hgf

/-- Closed instance of C7: the finalized range proof's `mj` is the
equality proof's response for the same attribute. -/
theorem claim_C7_witness :
    ProofBuilder.finalize (hashConst 1) intPairing cB7 5 = .ok cP7 ∧
    alookup cSp7.primary_proof.eq_proof.m cGe7.predicate.attr_name
      = some cGe7.mj := by
  have hfin : ProofBuilder.finalize (hashConst 1) intPairing cB7 5
      = .ok cP7 := rfl
  refine ⟨hfin, ?_⟩
  exact claim_C7_ge_shares_eq_response (hashConst 1) intPairing cB7 5 cP7
    hfin "k" cSp7 cGe7 rfl (List.mem_singleton.mpr rfl)

/-- C2: `ProofBuilder::finalize(nonce)` hashes the concatenation
`tau_list ++ c_list ++ nonce bytes` (in that order) into the challenge,
and every emitted equality sub-proof carries the responses
`e = e_tilde + challenge * e_prime`, `v = v_tilde + challenge * v_prime`,
`m_attr = m_tilde_attr + challenge * a_attr` for every unrevealed
attribute, and `m2 = m2_tilde + challenge * m2`, computed from its
stored init-proof. -/
theorem claim_C2_finalize_challenge_and_responses {G1 G2 GT Zq : Type}
    (H : List Bytes → Int) (ops : PairingOps G1 G2 GT Zq)
    (b : ProofBuilder G1 G2 Zq) (nonce : Int) (p : Proof G1 G2 Zq)
    (h : ProofBuilder.finalize H ops b nonce = .ok p) :
    p.aggregated_proof.c_hash
      = H (b.tau_list ++ b.c_list ++ [intBytes nonce]) ∧
    ∀ kid sp, alookup p.proofs kid = some sp →
      ∃ ip, (kid, ip) ∈ b.init_proofs ∧
        (sp.primary_proof.eq_proof.e
          = ip.primary_init_proof.eq_proof.e_tilde
            + H (b.tau_list ++ b.c_list ++ [intBytes nonce])
              * ip.primary_init_proof.eq_proof.e_prime) ∧
        (sp.primary_proof.eq_proof.v
          = ip.primary_init_proof.eq_proof.v_tilde
            + H (b.tau_list ++ b.c_list ++ [intBytes nonce])
              * ip.primary_init_proof.eq_proof.v_prime) ∧
        (sp.primary_proof.eq_proof.m2
          = ip.primary_init_proof.eq_proof.m2_tilde
            + H (b.tau_list ++ b.c_list ++ [intBytes nonce])
              * ip.primary_init_proof.eq_proof.m2) ∧
        ∀ attr ∈ unrevealed_attrs ip.credential_schema
            ip.sub_proof_request,
          ∃ mt av, alookup ip.primary_init_proof.eq_proof.m_tilde attr
              = some mt ∧
            alookup ip.credential_values.attrs_values attr = some av ∧
            alookup sp.primary_proof.eq_proof.m attr
              = some (mt + H (b.tau_list ++ b.c_list ++ [intBytes nonce])
                * av.value) := by
  unfold ProofBuilder.finalize at h
  dsimp only at h
  split at h
  · exact absurd h (by simp)
  · rename_i proofs heq
    injection h with h
    subst h
    refine ⟨rfl, ?_⟩
    intro kid sp hsp
    simp only at hsp
    obtain ⟨⟨kid0, ip⟩, hin, hf⟩ := emapM_mem heq (alookup_mem hsp)
    simp only at hf
    split at hf
    · exact absurd hf (by simp)
    · rename_i pp hpp
      injection hf with hf
      rw [Prod.mk.injEq] at hf
      obtain ⟨hk, hsp'⟩ := hf
      subst hk
      refine ⟨ip, hin, ?_⟩
      unfold finalize_primary_proof at hpp
      split at hpp
      · exact absurd hpp (by simp)
      · rename_i ep hep
        split at hpp
        · exact absurd hpp (by simp)
        · rename_i gps hgps
          injection hpp with hpp
          subst hpp
          rw [← hsp']
          obtain ⟨_, he, hv, hm2, hm⟩ := finalize_eq_ok hep
          refine ⟨by rw [he]; ring, by rw [hv]; ring,
            by rw [hm2]; ring, ?_⟩
          intro attr hattr
          obtain ⟨mt, av, hmt, hav, hl⟩ := hm attr hattr
          exact ⟨mt, av, hmt, hav, by rw [hl]; ring_nf⟩

/-- Closed instance of C2: challenge and equality responses of a
concrete finalization. -/
theorem claim_C2_witness :
    ProofBuilder.finalize (hashConst 7) intPairing cB2 5 = .ok cP2 ∧
    cP2.aggregated_proof.c_hash
      = hashConst 7 (cB2.tau_list ++ cB2.c_list ++ [intBytes 5]) ∧
    cSp2.primary_proof.eq_proof.e
      = cEqInit7.e_tilde
        + hashConst 7 (cB2.tau_list ++ cB2.c_list ++ [intBytes 5])
          * cEqInit7.e_prime ∧
    alookup cSp2.primary_proof.eq_proof.m "a"
      = some (3 + hashConst 7 (cB2.tau_list ++ cB2.c_list ++ [intBytes 5])
        * 5) := by
  have hfin : ProofBuilder.finalize (hashConst 7) intPairing cB2 5
      = .ok cP2 := rfl
  obtain ⟨hch, hsub⟩ := claim_C2_finalize_challenge_and_responses
    (hashConst 7) intPairing cB2 5 cP2 hfin
  obtain ⟨ip, hin, he, hv, hm2, hm⟩ := hsub "k2" cSp2 rfl
  have hip : ip = cIp2 := by
    simp [cB2] at hin
    exact hin
  subst hip
  obtain ⟨mt, av, hmt, hav, hl⟩ := hm "a" (by decide)
  have hmt' : mt = 3 := by
    have := hmt
    simp [cIp2, cEqInit7, alookup] at this
    omega
  have hav' : av = ⟨5, none⟩ := by
    have := hav
    simp [cIp2, alookup] at this
    exact this.symm
  subst hmt'
  subst hav'
  exact ⟨hfin, hch, he, hl⟩

/-- C5: on success, `blind_credential_secrets` returns
`U = S^{v'} * prod R_i^{a_i} mod n` over the blinded attributes, with
`v'` the returned blinding factor, and each committed attribute is the
Pedersen commitment `C_i = S^{b_i} * Z^{a_i} mod n` (base `S` carries
the blinding factor, base `Z` the attribute value); and whenever a
blinded attribute has no entry in `pk.r` (while the key-correctness
check would pass), the call fails with `InvalidStructure`. -/
theorem claim_C5_blinding_outputs (H : List Bytes → Int)
    (pk : CredentialPrimaryPublicKey)
    (kcp : CredentialKeyCorrectnessProof) (values : CredentialValues)
    (nonce : Int) (rand : BlindRand)
    (hnodup : (values.attrs_values.map Prod.fst).Nodup) :
    (∀ bcs pbf bcp,
      blind_credential_secrets H pk kcp values nonce rand
        = .ok (bcs, pbf, bcp) →
      (∃ factors, emapM (blinded_base pk)
          (values.attrs_values.filter
            (fun kv => kv.2.blinding_factor.isSome)) = .ok factors ∧
        bcs.u = (powMod pk.s pbf.v_prime pk.n * factors.prod) % pk.n) ∧
      ∀ k av bfv, alookup values.attrs_values k = some av →
        av.blinding_factor = some bfv →
        alookup bcs.committed_attributes k
          = some (get_pedersen_commitment pk.s bfv pk.z av.value pk.n)) ∧
    ((∃ kv ∈ values.attrs_values, kv.2.blinding_factor.isSome = true ∧
        alookup pk.r kv.1 = none) →
      check_credential_key_correctness_proof H pk kcp = .ok () →
      ∃ msg, blind_credential_secrets H pk kcp values nonce rand
        = .error (.invalidStructure msg)) := by
  constructor
  · intro bcs pbf bcp hok
    unfold blind_credential_secrets at hok
    split at hok
    · exact absurd hok (by simp)
    · split at hok
      · exact absurd hok (by simp)
      · rename_i factors hfac
        split at hok
        · exact absurd hok (by simp)
        · rename_i proof hproof
          injection hok with hok
          rw [Prod.mk.injEq] at hok
          obtain ⟨hbcs, hok⟩ := hok
          rw [Prod.mk.injEq] at hok
          obtain ⟨hpbf, hbcp⟩ := hok
          unfold generate_primary_blinded_credential_secrets at hfac
          cases hpr : gen_blinded_aux pk values.attrs_values
              (powMod pk.s rand.v_prime pk.n) [] with
          | error e => rw [hpr] at hfac; exact absurd hfac (by simp)
          | ok pr =>
            rw [hpr] at hfac
            obtain ⟨u, comm⟩ := pr
            injection hfac with hfac
            subst hfac
            have hured : powMod pk.s rand.v_prime pk.n % pk.n
                = powMod pk.s rand.v_prime pk.n :=
              Int.emod_emod_of_dvd _ dvd_rfl
            constructor
            · obtain ⟨fs, hfs, hprod⟩ := gen_blinded_aux_u pk _ _ _ _ _
                hured hpr
              exact ⟨fs, hfs, by rw [← hbcs, ← hpbf]; exact hprod⟩
            · intro k av bfv hk hbfv
              rw [← hbcs]
              exact gen_blinded_aux_comm pk _ hnodup _ _ _ _ _ _ _ hpr hk
                hbfv
  · intro hmiss hkcp
    obtain ⟨msg, hmsg⟩ := gen_blinded_aux_missing pk _ hmiss
      (powMod pk.s rand.v_prime pk.n) []
    refine ⟨msg, ?_⟩
    unfold blind_credential_secrets
    rw [hkcp]
    unfold generate_primary_blinded_credential_secrets
    rw [hmsg]

/-- Closed instance of C5: `U = 2^3 * 4^5 mod 15 = 2` and the committed
attribute is `2^7 * 8^5 mod 15 = 4`. -/
theorem claim_C5_witness :
    (wBlindValues.attrs_values.map Prod.fst).Nodup ∧
    blind_credential_secrets (hashConst 3) wPk wKcp wBlindValues 9
      wBlindRand
      = .ok (⟨2, [("a", 4)]⟩, ⟨3⟩, ⟨3, 10, [("a", 16)], [("a", 22)]⟩) ∧
    (2 : Int) = (powMod wPk.s 3 wPk.n * ([4] : List Int).prod) % wPk.n ∧
    alookup [("a", (4 : Int))] "a"
      = some (get_pedersen_commitment wPk.s 7 wPk.z 5 wPk.n) := by
  have hnodup : (wBlindValues.attrs_values.map Prod.fst).Nodup := by
    decide
  have hok : blind_credential_secrets (hashConst 3) wPk wKcp wBlindValues
      9 wBlindRand
      = .ok (⟨2, [("a", 4)]⟩, ⟨3⟩, ⟨3, 10, [("a", 16)], [("a", 22)]⟩) :=
    rfl
  obtain ⟨⟨factors, hfs, hu⟩, hcomm⟩ :=
    (claim_C5_blinding_outputs (hashConst 3) wPk wKcp wBlindValues 9
      wBlindRand hnodup).1 _ _ _ hok
  have hfs4 : factors = [4] := by
    have h4 : emapM (blinded_base wPk)
        (wBlindValues.attrs_values.filter
          (fun kv => kv.2.blinding_factor.isSome)) = .ok [4] := rfl
    rw [h4] at hfs
    injection hfs with h5
    exact h5.symm
  subst hfs4
  refine ⟨hnodup, hok, hu, ?_⟩
  exact hcomm "a" ⟨5, some 7⟩ 7 rfl rfl

theorem check_scp_characterization (H : List Bytes → Int)
    (p_cred : PrimaryCredentialSignature) (values : CredentialValues)
    (scp : SignatureCorrectnessProof)
    (ppk : CredentialPrimaryPublicKey) (nonce : Int)
    (gens : List (Int × Int)) (rx : Int)
    (hgens : emapM (sig_check_gens ppk) values.attrs_values = .ok gens)
    (hrx : rx = get_exponentiated_generators
      ((ppk.s, p_cred.v) :: (ppk.rctxt, p_cred.m_2) :: gens) ppk.n)
    (hinv : Int.gcd rx ppk.n = 1) :
    (check_signature_correctness_proof H p_cred values scp ppk nonce
        = .ok ()
      ↔ signature_check_conditions H p_cred scp ppk nonce rx) ∧
    (¬ signature_check_conditions H p_cred scp ppk nonce rx →
      check_signature_correctness_proof H p_cred values scp ppk nonce
        = .error (.invalidStructure "Invalid Signature correctness proof")) := by
  unfold check_signature_correctness_proof
  rw [hgens]
  by_cases hprime : Nat.Prime p_cred.e.toNat
  · rw [if_neg (by simpa using hprime)]
    dsimp only
    have hdiv : bmodDiv ppk.z (get_exponentiated_generators
        ((ppk.s, p_cred.v) :: (ppk.rctxt, p_cred.m_2) :: gens) ppk.n)
        ppk.n = .ok ((ppk.z * modInv rx ppk.n) % ppk.n) := by
      rw [← hrx]
      unfold bmodDiv
      rw [if_pos hinv]
    rw [hdiv]
    dsimp only
    by_cases hq : (ppk.z * modInv rx ppk.n) % ppk.n
        ≠ powMod p_cred.a p_cred.e ppk.n
    · rw [if_pos hq]
      constructor
      · constructor
        · intro h; exact absurd h (by simp)
        · intro hcond
          exact absurd hcond.2.1.symm hq
      · intro _; rfl
    · rw [if_neg hq]
      push_neg at hq
      by_cases hc : scp.c = H [intBytes ((ppk.z * modInv rx ppk.n)
            % ppk.n)
          ++ intBytes p_cred.a
          ++ intBytes (powMod p_cred.a (scp.c + scp.se * p_cred.e)
              ppk.n)
          ++ intBytes nonce]
      · rw [if_pos hc]
        constructor
        · constructor
          · intro _
            exact ⟨hprime, hq.symm, hc⟩
          · intro _; rfl
        · intro hcond
          exact absurd ⟨hprime, hq.symm, hc⟩ hcond
      · rw [if_neg hc]
        constructor
        · constructor
          · intro h; exact absurd h (by simp)
          · intro hcond
            exact absurd hcond.2.2 hc
        · intro _; rfl
  · rw [if_pos (by simpa using hprime)]
    constructor
    · constructor
      · intro h; exact absurd h (by simp)
      · intro hcond
        exact absurd hcond.1 hprime
    · intro _; rfl

/-- C1: `process_credential_signature` first replaces the primary `v` by
`v_prime + v` (any `Ok` result carries the updated `v`), and then
returns `Ok` only if the updated signature's `e` is prime,
`A^e mod n = Q = Z * Rx^{-1} mod n` (with `Rx` accumulated from `S^v`,
`Rctxt^{m2}` and `R_i^{a_i}` over all credential values), and the
recomputed hash of `(Q, A, A^{c + se*e}, nonce)` equals the proof's `c`;
if any of the three conditions fails, the call returns
`InvalidStructure("Invalid Signature correctness proof")`. -/
theorem claim_C1_process_checks_signature {G1 G2 GT Zq : Type}
    (H : List Bytes → Int) (ops : PairingOps G1 G2 GT Zq)
    (sig : CredentialSignature G1 G2 Zq) (values : CredentialValues)
    (scp : SignatureCorrectnessProof)
    (bf : CredentialSecretsBlindingFactors Zq)
    (pk : CredentialPublicKey G1 G2) (nonce : Int)
    (rkp : Option (RevocationKeyPublic GT))
    (rreg : Option (RevocationRegistry G2)) (w : Option (Witness G2))
    (gens : List (Int × Int)) (rx : Int)
    (hgens : emapM (sig_check_gens pk.p_key) values.attrs_values
      = .ok gens)
    (hrx : rx = get_exponentiated_generators
      ((pk.p_key.s, bf.v_prime + sig.p_credential.v) ::
        (pk.p_key.rctxt, sig.p_credential.m_2) :: gens) pk.p_key.n)
    (hinv : Int.gcd rx pk.p_key.n = 1) :
    ((process_credential_signature H ops sig values scp bf pk nonce rkp
        rreg w).isOk = true →
      signature_check_conditions H
        (process_primary_credential sig.p_credential bf.v_prime) scp
        pk.p_key nonce rx ∧
      ∀ sig', process_credential_signature H ops sig values scp bf pk
          nonce rkp rreg w = .ok sig' →
        sig'.p_credential.v = bf.v_prime + sig.p_credential.v) ∧
    (¬ signature_check_conditions H
        (process_primary_credential sig.p_credential bf.v_prime) scp
        pk.p_key nonce rx →
      process_credential_signature H ops sig values scp bf pk nonce rkp
        rreg w
        = .error (.invalidStructure "Invalid Signature correctness proof")) := by
  have hchar := check_scp_characterization H
    (process_primary_credential sig.p_credential bf.v_prime) values scp
    pk.p_key nonce gens rx hgens hrx hinv
  cases hc : check_signature_correctness_proof H
      (process_primary_credential sig.p_credential bf.v_prime) values scp
      pk.p_key nonce with
  | error e =>
      have hproc : process_credential_signature H ops sig values scp bf
          pk nonce rkp rreg w = .error e := by
        unfold process_credential_signature
        dsimp only
        rw [hc]
      constructor
      · intro hok
        rw [hproc] at hok
        simp [Except.isOk, Except.toBool] at hok
      · intro hcond
        rw [hproc]
        rw [hchar.2 hcond] at hc
        injection hc with hc
        rw [hc]
  | ok u =>
      cases u
      have hcond := hchar.1.mp hc
      constructor
      · intro _
        refine ⟨hcond, ?_⟩
        intro sig' hsig'
        unfold process_credential_signature at hsig'
        dsimp only at hsig'
        rw [hc] at hsig'
        obtain ⟨pc, rcred⟩ := sig
        obtain ⟨vp, vrp⟩ := bf
        obtain ⟨pkp, pkr⟩ := pk
        cases rcred <;> cases vrp <;> cases pkr <;> cases rkp <;>
          cases rreg <;> cases w <;>
          first
            | (injection hsig' with hsig'
               subst hsig'
               rfl)
            | (dsimp only at hsig'
               split at hsig'
               · exact absurd hsig' (by simp)
               · injection hsig' with hsig'
                 subst hsig'
                 rfl)
      · intro hcond'
        exact absurd hcond hcond'

/-- Closed instance of C1: the three conditions hold for the concrete
credential (with `v` unblinded to 2, `2^3 = 8 = 8 * 1^{-1} mod 15`) and
processing succeeds. -/
theorem claim_C1_witness :
    emapM (sig_check_gens wPk) wValues.attrs_values = .ok [(4, 5)] ∧
    (1 : Int) = get_exponentiated_generators
      ((wPk.s, wBf.v_prime + wPsig.v) :: (wPk.rctxt, wPsig.m_2) ::
        [(4, 5)]) wPk.n ∧
    Int.gcd 1 wPk.n = 1 ∧
    (process_credential_signature (hashConst 7) intPairing wCsig wValues
      wScp wBf wCpk 9 none none none).isOk = true ∧
    signature_check_conditions (hashConst 7)
      (process_primary_credential wPsig 1) wScp wPk 9 1 := by
  have hp := claim_C1_process_checks_signature (hashConst 7) intPairing
    wCsig wValues wScp wBf wCpk 9 none none none [(4, 5)] 1 rfl rfl
    (by decide)
  exact ⟨rfl, rfl, by decide, rfl, (hp.1 rfl).1⟩

theorem test_witness_signature_characterization {G1 G2 GT Zq : Type}
    (ops : PairingOps G1 G2 GT Zq)
    (rc : NonRevocationCredentialSignature G1 G2 Zq)
    (rkey : CredentialRevocationPublicKey G1 G2)
    (rkp : RevocationKeyPublic GT) (rreg : RevocationRegistry G2)
    (w : Witness G2) (m2big : Int) :
    (test_witness_signature ops rc rkey rkp rreg w m2big = .ok ()
      ↔ witness_pairing_identities ops rc rkey rkp rreg w m2big) ∧
    (¬ witness_pairing_identities ops rc rkey rkp rreg w m2big →
      test_witness_signature ops rc rkey rkp rreg w m2big
        = .error (.invalidStructure "Issuer is sending incorrect data")) := by
  unfold test_witness_signature witness_pairing_identities
  dsimp only
  by_cases h1 : ops.gtEq (ops.gtMul
      (ops.pair rc.witness_signature.g_i rreg.accum)
      (ops.gtInv (ops.pair rkey.g w.omega))) rkp.z = true
  · rw [if_neg (by simpa using h1)]
    by_cases h2 : ops.gtEq (ops.pair (ops.g1Add rkey.pk rc.g_i)
        rc.witness_signature.sigma_i) (ops.pair rkey.g rkey.g_dash)
        = true
    · rw [if_neg (by simpa using h2)]
      by_cases h3 : ops.gtEq (ops.pair rc.sigma
          (ops.g2Add rkey.y (ops.g2Mul rkey.h_cap rc.c)))
        (ops.pair
          (ops.g1Add
            (ops.g1Add
              (ops.g1Add rkey.h0
                (ops.g1Mul rkey.h1 (ops.bytesToZq (intBytes m2big))))
              (ops.g1Mul rkey.h2 rc.vr_prime_prime))
            rc.g_i)
          rkey.h_cap) = true
      · rw [if_neg (by simpa using h3)]
        exact ⟨⟨fun _ => ⟨h1, h2, h3⟩, fun _ => rfl⟩,
          fun hn => absurd ⟨h1, h2, h3⟩ hn⟩
      · rw [if_pos (by simpa using h3)]
        exact ⟨⟨fun h => absurd h (by simp),
          fun hc => absurd hc.2.2 h3⟩, fun _ => rfl⟩
    · rw [if_pos (by simpa using h2)]
      exact ⟨⟨fun h => absurd h (by simp),
        fun hc => absurd hc.2.1 h2⟩, fun _ => rfl⟩
  · rw [if_pos (by simpa using h1)]
    exact ⟨⟨fun h => absurd h (by simp), fun hc => absurd hc.1 h1⟩,
      fun _ => rfl⟩

/-- C6: with all revocation inputs supplied and the primary check
passing, `process_credential_signature` returns `Ok` exactly when the
three pairing identities of the non-revocation credential hold (the
first being `e(g_i, accum) * e(g, omega)^{-1} = z`), evaluated after
`vr_prime_prime` is updated to `vr_prime + vr_prime_prime`; any failing
identity yields `InvalidStructure("Issuer is sending incorrect data")`. -/
theorem claim_C6_pairing_identities_gate_ok {G1 G2 GT Zq : Type}
    (H : List Bytes → Int) (ops : PairingOps G1 G2 GT Zq)
    (pc : PrimaryCredentialSignature)
    (rc : NonRevocationCredentialSignature G1 G2 Zq)
    (values : CredentialValues) (scp : SignatureCorrectnessProof)
    (vp : Int) (vrp : Zq) (pkp : CredentialPrimaryPublicKey)
    (rkey : CredentialRevocationPublicKey G1 G2) (nonce : Int)
    (rkp : RevocationKeyPublic GT) (rreg : RevocationRegistry G2)
    (w : Witness G2)
    (hprimary : check_signature_correctness_proof H
      (process_primary_credential pc vp) values scp pkp nonce = .ok ()) :
    ((process_credential_signature H ops
        ⟨pc, some rc⟩ values scp ⟨vp, some vrp⟩ ⟨pkp, some rkey⟩ nonce
        (some rkp) (some rreg) (some w)).isOk = true
      ↔ witness_pairing_identities ops
          { rc with vr_prime_prime := ops.zqAdd vrp rc.vr_prime_prime }
          rkey rkp rreg w
          (Int.ofNat (bytesToNat (ops.zqToBytes rc.m2)))) ∧
    (¬ witness_pairing_identities ops
        { rc with vr_prime_prime := ops.zqAdd vrp rc.vr_prime_prime }
        rkey rkp rreg w (Int.ofNat (bytesToNat (ops.zqToBytes rc.m2))) →
      process_credential_signature H ops ⟨pc, some rc⟩ values scp
        ⟨vp, some vrp⟩ ⟨pkp, some rkey⟩ nonce (some rkp) (some rreg)
        (some w)
        = .error (.invalidStructure "Issuer is sending incorrect data")) := by
  have hchar := test_witness_signature_characterization ops
    { rc with vr_prime_prime := ops.zqAdd vrp rc.vr_prime_prime }
    rkey rkp rreg w (Int.ofNat (bytesToNat (ops.zqToBytes rc.m2)))
  have hproc : process_credential_signature H ops ⟨pc, some rc⟩ values
      scp ⟨vp, some vrp⟩ ⟨pkp, some rkey⟩ nonce (some rkp) (some rreg)
      (some w)
      = match test_witness_signature ops
          { rc with vr_prime_prime := ops.zqAdd vrp rc.vr_prime_prime }
          rkey rkp rreg w
          (Int.ofNat (bytesToNat (ops.zqToBytes rc.m2))) with
        | .error e => .error e
        | .ok _ => .ok ⟨process_primary_credential pc vp,
            some { rc with
              vr_prime_prime := ops.zqAdd vrp rc.vr_prime_prime }⟩ := by
    unfold process_credential_signature
    dsimp only
    rw [hprimary]
    unfold process_non_revocation_credential
    dsimp only
    cases test_witness_signature ops
        { rc with vr_prime_prime := ops.zqAdd vrp rc.vr_prime_prime }
        rkey rkp rreg w
        (Int.ofNat (bytesToNat (ops.zqToBytes rc.m2))) <;> rfl
  rw [hproc]
  constructor
  · cases htest : test_witness_signature ops
        { rc with vr_prime_prime := ops.zqAdd vrp rc.vr_prime_prime }
        rkey rkp rreg w
        (Int.ofNat (bytesToNat (ops.zqToBytes rc.m2))) with
    | error e =>
        constructor
        · intro hok; simp [Except.isOk, Except.toBool] at hok
        · intro hid
          rw [hchar.1.mpr hid] at htest
          exact absurd htest (by simp)
    | ok u =>
        cases u
        constructor
        · intro _; exact hchar.1.mp htest
        · intro _; rfl
  · intro hn
    rw [hchar.2 hn]

/-- Closed instance of C6: with the all-zero integer pairing instance
the three identities hold and processing succeeds end to end. -/
theorem claim_C6_witness :
    check_signature_correctness_proof (hashConst 7)
      (process_primary_credential wPsig 1) wValues wScp wPk 9
      = .ok () ∧
    witness_pairing_identities intPairing
      { wRcred with
        vr_prime_prime := intPairing.zqAdd 0 wRcred.vr_prime_prime }
      wRevPk wRevKeyPub wRevReg wWitness
      (Int.ofNat (bytesToNat (intPairing.zqToBytes wRcred.m2))) ∧
    (process_credential_signature (hashConst 7) intPairing
      ⟨wPsig, some wRcred⟩ wValues wScp ⟨1, some 0⟩ ⟨wPk, some wRevPk⟩ 9
      (some wRevKeyPub) (some wRevReg) (some wWitness)).isOk = true := by
  have hprimary : check_signature_correctness_proof (hashConst 7)
      (process_primary_credential wPsig 1) wValues wScp wPk 9
      = .ok () := rfl
  have hids : witness_pairing_identities intPairing
      { wRcred with
        vr_prime_prime := intPairing.zqAdd 0 wRcred.vr_prime_prime }
      wRevPk wRevKeyPub wRevReg wWitness
      (Int.ofNat (bytesToNat (intPairing.zqToBytes wRcred.m2))) := by
    refine ⟨?_, ?_, ?_⟩ <;> rfl
  exact ⟨hprimary, hids,
    ((claim_C6_pairing_identities_gate_ok (hashConst 7) intPairing wPsig
      wRcred wValues wScp 1 0 wPk wRevPk 9 wRevKeyPub wRevReg wWitness
      hprimary).1).mpr hids⟩

/-- C4 (amended): a failing `add_sub_proof_request` never changes
`init_proofs`; moreover the entire builder state (including `c_list` and
`tau_list`) is unchanged whenever any revocation input is absent, or
whenever the failure comes from the initial consistency check.  (With
all revocation inputs present, a failure of the later primary/range
initialization leaves the already-appended non-revocation bytes in
`c_list`/`tau_list`; see the counterexample.) -/
theorem claim_C4_error_leaves_state {G1 G2 GT Zq : Type}
    (ops : PairingOps G1 G2 GT Zq)
    (tauBytes : CredentialRevocationPublicKey G1 G2 →
      RevocationRegistry G2 → NonRevocProofXList Zq →
      NonRevocProofCList G1 G2 → List Bytes)
    (rand : SubProofRand Zq) (b : ProofBuilder G1 G2 Zq)
    (key_id : String) (req : SubProofRequest)
    (schema : CredentialSchema) (csig : CredentialSignature G1 G2 Zq)
    (values : CredentialValues) (cpk : CredentialPublicKey G1 G2)
    (rreg : Option (RevocationRegistry G2)) (w : Option (Witness G2))
    (e : IndyCryptoError)
    (h : (add_sub_proof_request ops tauBytes rand b key_id req schema
      csig values cpk rreg w).1 = .error e) :
    (add_sub_proof_request ops tauBytes rand b key_id req schema csig
      values cpk rreg w).2.init_proofs = b.init_proofs ∧
    ((csig.r_credential = none ∨ rreg = none ∨ cpk.r_key = none ∨
        w = none) →
      (add_sub_proof_request ops tauBytes rand b key_id req schema csig
        values cpk rreg w).2 = b) ∧
    (∀ e', check_add_sub_proof_request_params_consistency values req
        schema = .error e' →
      (add_sub_proof_request ops tauBytes rand b key_id req schema csig
        values cpk rreg w).2 = b) := by
  obtain ⟨pc, rcred⟩ := csig
  obtain ⟨pkp, pkr⟩ := cpk
  cases hcons : check_add_sub_proof_request_params_consistency values req
      schema with
  | error e0 =>
      simp [add_sub_proof_request, hcons]
  | ok u =>
      cases u
      cases rcred <;> cases rreg <;> cases pkr <;> cases w <;>
        (simp only [add_sub_proof_request, hcons] at h ⊢
         split at h
         · rename_i e0 hpip
           refine ⟨rfl, ?_, ?_⟩
           · intro hne
             first
               | rfl
               | (exfalso
                  rcases hne with hne | hne | hne | hne <;>
                    exact absurd hne (by simp))
           · intro e' he'
             exact absurd he' (by simp)
         · simp at h)

/-- Counterexample to C4 as stated: with revocation data present and a
violated predicate, `add_sub_proof_request` fails, yet the builder's
`c_list` is not the same as before the call — the seven non-revocation
commitment entries were already appended. -/
theorem claim_C4_counterexample :
    (add_sub_proof_request intPairing noTauBytes wRand
      (new_proof_builder Int Int Int) "c" cReqC3 wSchema cCsigRev
      cValuesC3 cCpkRev (some wRevReg) (some wWitness)).1
      = .error (.invalidStructure "Predicate is not satisfied") ∧
    ¬ ((add_sub_proof_request intPairing noTauBytes wRand
      (new_proof_builder Int Int Int) "c" cReqC3 wSchema cCsigRev
      cValuesC3 cCpkRev (some wRevReg) (some wWitness)).2.c_list
      = (new_proof_builder Int Int Int).c_list) := by
  exact ⟨rfl, by decide⟩

/-- Closed instance of the amended C4: a failing call without revocation
data leaves the builder exactly as it was. -/
theorem claim_C4_witness :
    (add_sub_proof_request intPairing noTauBytes wRand
      (new_proof_builder Int Int Int) "c" cReqC3 wSchema wCsig cValuesC3
      wCpk none none).1
      = .error (.invalidStructure "Predicate is not satisfied") ∧
    (add_sub_proof_request intPairing noTauBytes wRand
      (new_proof_builder Int Int Int) "c" cReqC3 wSchema wCsig cValuesC3
      wCpk none none).2 = new_proof_builder Int Int Int := by
  have h : (add_sub_proof_request intPairing noTauBytes wRand
      (new_proof_builder Int Int Int) "c" cReqC3 wSchema wCsig cValuesC3
      wCpk none none).1
      = .error (.invalidStructure "Predicate is not satisfied") := rfl
  refine ⟨h, ?_⟩
  exact (claim_C4_error_leaves_state intPairing noTauBytes wRand
    (new_proof_builder Int Int Int) "c" cReqC3 wSchema wCsig cValuesC3
    wCpk none none _ h).2.1 (Or.inl rfl)

theorem wrap32_eq {x : Int} (h1 : -(2 ^ 31) ≤ x) (h2 : x ≤ 2 ^ 31 - 1) :
    wrap32 x = x := by
  unfold wrap32
  omega

theorem efoldl_ok_of_forall {α β : Type} {f : β → α → CResult β}
    {l : List α} (h : ∀ x ∈ l, ∀ acc, ∃ acc', f acc x = .ok acc') :
    ∀ acc, ∃ res, efoldl f acc l = .ok res := by
  induction l with
  | nil => intro acc; exact ⟨acc, rfl⟩
  | cons x xs ih =>
      intro acc
      obtain ⟨acc', hacc'⟩ := h x (by simp) acc
      obtain ⟨res, hres⟩ := ih (fun y hy a => h y (by simp [hy]) a) acc'
      exact ⟨res, by simp [efoldl, hacc', hres]⟩

theorem four_squares_lookup (d : Int) (i : Nat)
    (hi : i ∈ List.range ITERATION) :
    ∃ v, alookup (four_squares d) (toString i) = some v := by
  simp [ITERATION, List.mem_range] at hi
  interval_cases i <;> exact ⟨_, rfl⟩

theorem init_eq_ok_of_keys (rand : EqRand)
    (pk : CredentialPrimaryPublicKey) (c1 : PrimaryCredentialSignature)
    (schema : CredentialSchema) (req : SubProofRequest)
    (m2t : Option Int)
    (hr : ∀ attr ∈ unrevealed_attrs schema req,
      (alookup pk.r attr).isSome = true) :
    ∃ ep, init_eq_proof rand pk c1 schema req m2t = .ok ep := by
  have h : ∀ attr ∈ unrevealed_attrs schema req, ∃ y,
      teq_factor pk (get_mtilde rand.m_tilde
        (unrevealed_attrs schema req)) attr = .ok y := by
    intro attr hattr
    obtain ⟨rv, hrv⟩ := Option.isSome_iff_exists.mp (hr attr hattr)
    exact ⟨powMod rv (rand.m_tilde attr) pk.n, by
      unfold teq_factor
      rw [hrv, get_mtilde_lookup rand.m_tilde _ attr hattr]⟩
  obtain ⟨l, hl⟩ := emapM_ok_of_forall h
  unfold init_eq_proof calc_teq
  dsimp only
  rw [hl]
  exact ⟨_, rfl⟩

theorem init_ge_msg_iff (rand : GeRand) (pk : CredentialPrimaryPublicKey)
    (m_tilde : SMap Int) (values : CredentialValues) (pred : Predicate)
    (av : AttributeValue)
    (hav : alookup values.attrs_values pred.attr_name = some av)
    (hval : 0 ≤ av.value ∧ av.value ≤ 2 ^ 31 - 1)
    (hk : -(2 ^ 31) ≤ pred.value ∧ pred.value ≤ 2 ^ 31 - 1)
    (hnoov : av.value - pred.value ≤ 2 ^ 31 - 1) :
    (init_ge_proof rand pk m_tilde values pred
      = .error (.invalidStructure "Predicate is not satisfied"))
    ↔ av.value < pred.value := by
  unfold init_ge_proof
  rw [hav]
  dsimp only
  have hparse : parseI32 av.value = some av.value := by
    unfold parseI32
    rw [if_pos ⟨by omega, hval.2⟩]
  rw [hparse]
  dsimp only
  rw [wrap32_eq (by omega) hnoov]
  by_cases hlt : av.value - pred.value < 0
  · rw [if_pos hlt]
    exact ⟨fun _ => by omega, fun _ => rfl⟩
  · rw [if_neg hlt]
    constructor
    · intro hres
      exfalso
      have hstep : ∀ i ∈ List.range ITERATION,
          ∀ (st : SMap Int × SMap Int × List Int), ∃ st',
          ge_fold_step pk rand (four_squares (av.value - pred.value)) st
            i = .ok st' := by
        intro i hi st
        obtain ⟨v, hv⟩ := four_squares_lookup _ i hi
        exact ⟨(ains st.1 (toString i) (rand.r i),
          ains st.2.1 (toString i)
            (get_pedersen_commitment pk.z v pk.s (rand.r i) pk.n),
          st.2.2 ++ [get_pedersen_commitment pk.z v pk.s (rand.r i)
            pk.n]), by
          unfold ge_fold_step
          rw [hv]⟩
      obtain ⟨res, hfold⟩ := efoldl_ok_of_forall hstep
        (([], [], []) : SMap Int × SMap Int × List Int)
      rw [hfold] at hres
      obtain ⟨r0, t0, c0⟩ := res
      dsimp only at hres
      cases hmj : alookup m_tilde pred.attr_name with
      | none =>
          rw [hmj] at hres
          injection hres with hres
          injection hres with hres
          have hlen := congrArg String.length hres
          rw [String.length_append, String.length_append] at hlen
          have e1 : ("Value by key " : String).length = 13 := rfl
          have e2 : (" not found in eq_proof.mtilde" : String).length
              = 29 := rfl
          have e3 : ("Predicate is not satisfied" : String).length
              = 26 := rfl
          omega
      | some mj =>
          rw [hmj] at hres
          exact absurd hres (by simp)
    · intro hv
      exact absurd (by omega : av.value - pred.value < 0) hlt

/-- C3 (amended): for a sub-proof request whose only predicate is
`{attr, GE, k}` with `attr` in the schema (consistency precheck
passing), with every unrevealed attribute present in `pk.r`, and with
the attribute value and the difference `value - k` within the `i32`
range (no wrapping in the `i32` subtraction producing `delta`),
`add_sub_proof_request` fails with
`InvalidStructure("Predicate is not satisfied")` if and only if the
attribute's value is strictly less than `k`.  (Without the
no-overflow side conditions the equivalence is false; see the
counterexample.) -/
theorem claim_C3_amended_predicate_boundary {G1 G2 GT Zq : Type}
    (ops : PairingOps G1 G2 GT Zq)
    (tauBytes : CredentialRevocationPublicKey G1 G2 →
      RevocationRegistry G2 → NonRevocProofXList Zq →
      NonRevocProofCList G1 G2 → List Bytes)
    (rand : SubProofRand Zq) (b : ProofBuilder G1 G2 Zq)
    (key_id : String) (req : SubProofRequest)
    (schema : CredentialSchema) (csig : CredentialSignature G1 G2 Zq)
    (values : CredentialValues) (cpk : CredentialPublicKey G1 G2)
    (rreg : Option (RevocationRegistry G2)) (w : Option (Witness G2))
    (pred : Predicate) (av : AttributeValue)
    (hpred : req.predicates = [pred])
    (hcons : check_add_sub_proof_request_params_consistency values req
      schema = .ok ())
    (hav : alookup values.attrs_values pred.attr_name = some av)
    (hval : 0 ≤ av.value ∧ av.value ≤ 2 ^ 31 - 1)
    (hk : -(2 ^ 31) ≤ pred.value ∧ pred.value ≤ 2 ^ 31 - 1)
    (hnoov : av.value - pred.value ≤ 2 ^ 31 - 1)
    (hr : ∀ attr ∈ unrevealed_attrs schema req,
      (alookup cpk.p_key.r attr).isSome = true) :
    ((add_sub_proof_request ops tauBytes rand b key_id req schema csig
      values cpk rreg w).1
      = .error (.invalidStructure "Predicate is not satisfied"))
    ↔ av.value < pred.value := by
  obtain ⟨pc, rcred⟩ := csig
  obtain ⟨pkp, pkr⟩ := cpk
  have key : ∀ (m2t : Option Int),
      (init_primary_proof rand.eq rand.ge pkp pc values schema req m2t
        = .error (.invalidStructure "Predicate is not satisfied"))
      ↔ av.value < pred.value := by
    intro m2t
    unfold init_primary_proof
    obtain ⟨ep, hep⟩ := init_eq_ok_of_keys rand.eq pkp pc schema req m2t
      hr
    rw [hep]
    dsimp only
    rw [hpred]
    have hIter : (List.range ([pred] : List Predicate).length).zip
        [pred] = [(0, pred)] := rfl
    rw [hIter]
    cases hge : init_ge_proof (rand.ge 0) pkp ep.m_tilde values pred with
    | error e =>
        have hmm : emapM (fun (ip : Nat × Predicate) =>
            init_ge_proof (rand.ge ip.1) pkp ep.m_tilde values ip.2)
            [(0, pred)] = .error e := by
          simp [emapM, hge]
        rw [hmm]
        constructor
        · intro h'
          injection h' with h'
          rw [h'] at hge
          exact (init_ge_msg_iff (rand.ge 0) pkp ep.m_tilde values pred
            av hav hval hk hnoov).mp hge
        · intro hv
          have := (init_ge_msg_iff (rand.ge 0) pkp ep.m_tilde values
            pred av hav hval hk hnoov).mpr hv
          rw [this] at hge
          injection hge with hge
          rw [hge]
    | ok gp =>
        have hmm : emapM (fun (ip : Nat × Predicate) =>
            init_ge_proof (rand.ge ip.1) pkp ep.m_tilde values ip.2)
            [(0, pred)] = .ok [gp] := by
          simp [emapM, hge]
        rw [hmm]
        dsimp only
        constructor
        · intro h'
          exact absurd h' (by simp)
        · intro hv
          have := (init_ge_msg_iff (rand.ge 0) pkp ep.m_tilde values
            pred av hav hval hk hnoov).mpr hv
          rw [this] at hge
          exact absurd hge (by simp)
  cases rcred with
  | none =>
      simp only [add_sub_proof_request, hcons]
      cases hpip : init_primary_proof rand.eq rand.ge pkp pc values
          schema req none with
      | error e =>
          simp only [hpip]
          have k' := key none
          rw [hpip] at k'
          constructor
          · intro h'
            injection h' with h'
            exact k'.mp (by rw [h'])
          · intro hv
            have h2 := k'.mpr hv
            injection h2 with h2
            rw [h2]
      | ok pip =>
          simp only [hpip]
          have k' := key none
          rw [hpip] at k'
          constructor
          · intro h'
            exact absurd h' (by simp)
          · intro hv
            exact absurd (k'.mpr hv) (by simp)
  | some rc =>
    cases rreg with
    | none =>
        simp only [add_sub_proof_request, hcons]
        cases hpip : init_primary_proof rand.eq rand.ge pkp pc values
            schema req none with
        | error e =>
            simp only [hpip]
            have k' := key none
            rw [hpip] at k'
            constructor
            · intro h'
              injection h' with h'
              exact k'.mp (by rw [h'])
            · intro hv
              have h2 := k'.mpr hv
              injection h2 with h2
              rw [h2]
        | ok pip =>
            simp only [hpip]
            have k' := key none
            rw [hpip] at k'
            constructor
            · intro h'
              exact absurd h' (by simp)
            · intro hv
              exact absurd (k'.mpr hv) (by simp)
    | some rr =>
      cases pkr with
      | none =>
          simp only [add_sub_proof_request, hcons]
          cases hpip : init_primary_proof rand.eq rand.ge pkp pc values
              schema req none with
          | error e =>
              simp only [hpip]
              have k' := key none
              rw [hpip] at k'
              constructor
              · intro h'
                injection h' with h'
                exact k'.mp (by rw [h'])
              · intro hv
                have h2 := k'.mpr hv
                injection h2 with h2
                rw [h2]
          | ok pip =>
              simp only [hpip]
              have k' := key none
              rw [hpip] at k'
              constructor
              · intro h'
                exact absurd h' (by simp)
              · intro hv
                exact absurd (k'.mpr hv) (by simp)
      | some rpk =>
        cases w with
        | none =>
            simp only [add_sub_proof_request, hcons]
            cases hpip : init_primary_proof rand.eq rand.ge pkp pc
                values schema req none with
            | error e =>
                simp only [hpip]
                have k' := key none
                rw [hpip] at k'
                constructor
                · intro h'
                  injection h' with h'
                  exact k'.mp (by rw [h'])
                · intro hv
                  have h2 := k'.mpr hv
                  injection h2 with h2
                  rw [h2]
            | ok pip =>
                simp only [hpip]
                have k' := key none
                rw [hpip] at k'
                constructor
                · intro h'
                  exact absurd h' (by simp)
                · intro hv
                  exact absurd (k'.mpr hv) (by simp)
        | some wi =>
            simp only [add_sub_proof_request, hcons]
            cases hpip : init_primary_proof rand.eq rand.ge pkp pc
                values schema req
                (some (group_element_to_bignum ops
                  (init_non_revocation_proof ops tauBytes rand.non_rev
                    rc rr rpk wi).tau_list_params.m2)) with
            | error e =>
                simp only [hpip]
                have k' := key (some (group_element_to_bignum ops
                  (init_non_revocation_proof ops tauBytes rand.non_rev
                    rc rr rpk wi).tau_list_params.m2))
                rw [hpip] at k'
                constructor
                · intro h'
                  injection h' with h'
                  exact k'.mp (by rw [h'])
                · intro hv
                  have h2 := k'.mpr hv
                  injection h2 with h2
                  rw [h2]
            | ok pip =>
                simp only [hpip]
                have k' := key (some (group_element_to_bignum ops
                  (init_non_revocation_proof ops tauBytes rand.non_rev
                    rc rr rpk wi).tau_list_params.m2))
                rw [hpip] at k'
                constructor
                · intro h'
                  exact absurd h' (by simp)
                · intro hv
                  exact absurd (k'.mpr hv) (by simp)

/-- Counterexample to C3 as stated: attribute value `2147483647` and
bound `-2` satisfy `value >= k`, yet the `i32` subtraction
`2147483647 - (-2)` wraps negative and `add_sub_proof_request` fails
with `InvalidStructure("Predicate is not satisfied")`. -/
theorem claim_C3_counterexample :
    (add_sub_proof_request intPairing noTauBytes wRand
      (new_proof_builder Int Int Int) "c" cReqC3 wSchema wCsig cValuesC3
      wCpk none none).1
      = .error (.invalidStructure "Predicate is not satisfied") ∧
    ¬ ((2147483647 : Int) < -2) :=
  ⟨rfl, by decide⟩

/-- Closed instance of the amended C3: value 17 against bound 18 is in
range, and the call fails with the predicate message. -/
theorem claim_C3_witness :
    alookup (⟨[("a", ⟨17, none⟩)]⟩ : CredentialValues).attrs_values "a"
      = some ⟨17, none⟩ ∧
    (add_sub_proof_request intPairing noTauBytes wRand
      (new_proof_builder Int Int Int) "c"
      ⟨[], [⟨"a", 18⟩]⟩ wSchema wCsig ⟨[("a", ⟨17, none⟩)]⟩ wCpk none
      none).1
      = .error (.invalidStructure "Predicate is not satisfied") := by
  refine ⟨rfl, ?_⟩
  exact (claim_C3_amended_predicate_boundary intPairing noTauBytes wRand
    (new_proof_builder Int Int Int) "c" ⟨[], [⟨"a", 18⟩]⟩ wSchema wCsig
    ⟨[("a", ⟨17, none⟩)]⟩ wCpk none none ⟨"a", 18⟩ ⟨17, none⟩ rfl rfl rfl
    (by decide) (by decide) (by decide) (by decide)).mpr (by decide)
